import Mathlib

/-!
Shallow embedding of the timeline-atlas event admission and layout core.

Sources embedded here:
* `src/unnamed/part_004` (the event model: fuzzy date parsing with BCE support,
  `parseEventTime`, `eventStartDate`, `eventEndDate`, `endOfDay`);
* `src/client/src/app/timeline/event-to-timeline-item.ts` (the selection pipeline:
  `minImportanceForVisibleSpan`, `maxEventsForVisibleSpan`, `timeRangeForEvent`,
  `selectEventsUpToMaxConcurrent`, `eventsToTimelineItems`, `median`,
  `computeHideLabelByEventId`, `eventToTimelineItem`);
* `src/client/src/app/models/category-colors.ts` (`colorForCategory`).

Modelling conventions:
* JS `Date` instants are milliseconds since the Unix epoch, modelled as `Int`.
  Calendar arithmetic (`setUTCFullYear` rollover) follows ECMAScript MakeDay on the
  proleptic Gregorian calendar.
* JS floating-point numbers carrying importance scores, spans and fractions are
  modelled as `ℚ`; `Math.log` forces `ℝ` for the importance-threshold function.
* The general date parser `new Date(string)` used as a fallback when the
  year-month-day pattern does not match is platform library code, not part of this
  repository; it is threaded through every definition as an explicit parameter
  `fb : String → Option Int` (returning `none` for an invalid date).
* JS `Array.prototype.sort` with a consistent comparator is a stable sort; every
  stable sort agrees on the result, so it is modelled as insertion sort.
* `TimelineItem.start`/`.end` are ISO serialisations of instants in the source;
  serialisation is injective on instants, so the fields are modelled as the instants.
-/

namespace TimelineAtlas

/-- Milliseconds since the Unix epoch, the value of JS `Date.prototype.getTime`. -/
abbrev Instant := Int

/-- Fuzzy date value `{ value: string; resolution?: string }` from the event API. -/
structure EventTimeValue where
  value : String
  resolution : Option String := none
deriving DecidableEq

/-- The fields of the `EventApi` record that the embedded core reads.  Display-only
fields that no embedded function inspects (location, wikidata links, counters) are
omitted. -/
structure EventApi where
  id : Int
  category_id : Option Int := none
  title : String := ""
  description : String := ""
  wikipedia_title : String := ""
  point_in_time : Option EventTimeValue := none
  start_time : Option EventTimeValue := none
  end_time : Option EventTimeValue := none
  importance_score : Option ℚ := none
deriving DecidableEq

/-- Milliseconds per day. -/
def msPerDay : Int := 86400000

/-- Day number of a proleptic-Gregorian civil date (year, month 1-12, day), with day 0
at 1970-01-01; the standard era-based `days_from_civil` computation used to model the
ECMAScript `MakeDay` operation. -/
def daysFromCivil (y m d : Int) : Int :=
  let y' := if m ≤ 2 then y - 1 else y
  let era := Int.fdiv y' 400
  let yoe := y' - era * 400
  let mp := Int.emod (m + 9) 12
  let doy := (153 * mp + 2) / 5 + d - 1
  let doe := yoe * 365 + yoe / 4 - yoe / 100 + doy
  era * 146097 + doe - 719468

/-- Model of `const base = new Date(0); base.setUTCFullYear(year, monthIdx, day);
base.setUTCHours(0, 0, 0, 0);` — month index and day roll over per ECMAScript
MakeDay (month index 0 is January; day 0 is the last day of the previous month).
The source additionally checks `isFinite(base.getTime())`; with 1-4 captured year
digits the result is always finite, so the check is dropped. -/
def makeUTCDate (year monthIdx day : Int) : Instant :=
  let ym := year * 12 + monthIdx
  let y := Int.fdiv ym 12
  let m := Int.emod ym 12 + 1
  (daysFromCivil y m 1 + (day - 1)) * msPerDay

/-- Model of `endOfDay`: copy the date and `setUTCHours(23, 59, 59, 999)`, i.e. the
last millisecond of the UTC day containing the instant. -/
def endOfDay (t : Instant) : Instant :=
  Int.fdiv t msPerDay * msPerDay + (msPerDay - 1)

/-- ASCII digit test for the `\d` character class of the source regex. -/
def isAsciiDigit (c : Char) : Bool := decide ('0' ≤ c) && decide (c ≤ '9')

/-- Numeric value of an ASCII digit. -/
def digitVal (c : Char) : Nat := c.toNat - '0'.toNat

/-- Model of `value.replace(UNICODE_MINUS, '-')`: JS `String.replace` with a string
pattern replaces only the first occurrence of U+2212. -/
def normalizeMinus : List Char → List Char
  | [] => []
  | c :: cs => if c.toNat = 0x2212 then '-' :: cs else c :: normalizeMinus cs

/-- Decimal value of a digit run, as produced by `parseInt(-, 10)` on the capture. -/
def digitsToNat (l : List Char) : Nat := l.foldl (fun acc c => acc * 10 + digitVal c) 0

/-- Greedy run of at most `n` leading ASCII digits, returning the digits and the rest. -/
def takeDigits : Nat → List Char → List Char × List Char
  | 0, cs => ([], cs)
  | _ + 1, [] => ([], [])
  | n + 1, c :: cs =>
    if isAsciiDigit c then
      let p := takeDigits n cs
      (c :: p.1, p.2)
    else ([], c :: cs)

/-- Match of the regex fragment `-(\d{2})`: a hyphen followed by exactly two digits
(further characters may follow, as the source regex has no anchor there). -/
def parseDashTwoDigits : List Char → Option (Nat × List Char)
  | '-' :: c1 :: c2 :: rest =>
    if isAsciiDigit c1 && isAsciiDigit c2 then
      some (digitVal c1 * 10 + digitVal c2, rest)
    else none
  | _ => none

/-- Model of `normalized.match(/^(-?\d{1,4})(?:-(\d{2})(?:-(\d{2}))?)?/)` together
with the component extraction of the source: `year = parseInt(m[1], 10)`,
`month = m[2] ? parseInt(m[2], 10) - 1 : 0` (a captured month is a nonempty string,
hence always truthy), `day = m[3] ? parseInt(m[3], 10) : 1`.  Returns
(year, month index, day) on a match. -/
def parseLeadingDate (cs : List Char) : Option (Int × Int × Int) :=
  let sr : Bool × List Char :=
    match cs with
    | '-' :: r => (true, r)
    | r => (false, r)
  match takeDigits 4 sr.2 with
  | ([], _) => none
  | (ds, r1) =>
    let y : Int := if sr.1 then -(digitsToNat ds : Int) else (digitsToNat ds : Int)
    match parseDashTwoDigits r1 with
    | none => some (y, 0, 1)
    | some (mo, r2) =>
      match parseDashTwoDigits r2 with
      | none => some (y, (mo : Int) - 1, 1)
      | some (da, _) => some (y, (mo : Int) - 1, (da : Int))

/-- Model of `parseEventTimeValue`: normalize the Unicode minus, parse the leading
`[sign]YYYY[-MM[-DD]]` pattern componentwise, and otherwise fall back to the
platform general date parser `new Date(normalized)` (the parameter `fb`). -/
def parseEventTimeValue (fb : String → Option Instant) (value : String) : Option Instant :=
  let normalized := normalizeMinus value.toList
  match parseLeadingDate normalized with
  | some c => some (makeUTCDate c.1 c.2.1 c.2.2)
  | none => fb (String.mk normalized)

/-- Model of `parseEventTime`: `if (!time?.value) return null` (absent field or empty
string are both falsy), then `parseEventTimeValue(time.value)`. -/
def parseEventTime (fb : String → Option Instant) : Option EventTimeValue → Option Instant
  | none => none
  | some t => if t.value = "" then none else parseEventTimeValue fb t.value

/-- Truthiness of `time?.value` for an optional fuzzy date field. -/
def hasTruthyValue : Option EventTimeValue → Bool
  | none => false
  | some t => t.value != ""

/-- Model of `hasStartAndEnd`: `!!(event.start_time?.value && event.end_time?.value)`. -/
def hasStartAndEnd (e : EventApi) : Bool :=
  hasTruthyValue e.start_time && hasTruthyValue e.end_time

/-- Model of `eventStartDate`: with both start and end present resolve the start
directly, otherwise `start ?? pointInTime ?? end`. -/
def eventStartDate (fb : String → Option Instant) (e : EventApi) : Option Instant :=
  if hasStartAndEnd e then parseEventTime fb e.start_time
  else
    ((parseEventTime fb e.start_time).orElse fun _ =>
      (parseEventTime fb e.point_in_time).orElse fun _ =>
        parseEventTime fb e.end_time)

/-- Model of `eventEndDate`: with both start and end present resolve the end
directly, otherwise `end ?? pointInTime ?? start`. -/
def eventEndDate (fb : String → Option Instant) (e : EventApi) : Option Instant :=
  if hasStartAndEnd e then parseEventTime fb e.end_time
  else
    ((parseEventTime fb e.end_time).orElse fun _ =>
      (parseEventTime fb e.point_in_time).orElse fun _ =>
        parseEventTime fb e.start_time)

/-- The palette `CATEGORY_COLORS` of `category-colors.ts`. -/
def CATEGORY_COLORS : List String :=
  ["#1976d2", "#c62828", "#2e7d32", "#f9a825", "#6a1b9a",
   "#00838f", "#d84315", "#283593", "#558b2f", "#ad1457"]

/-- The sentinel colour for events without a category. -/
def UNCATEGORIZED_COLOR : String := "#757575"

/-- Model of `colorForCategory`: `Math.abs(categoryId) % CATEGORY_COLORS.length`. -/
def colorForCategory : Option Int → String
  | none => UNCATEGORIZED_COLOR
  | some cid => CATEGORY_COLORS.getD (cid.natAbs % CATEGORY_COLORS.length) UNCATEGORIZED_COLOR

/-- Group key for events without a category. -/
def UNCATEGORIZED_GROUP_ID : String := "uncategorized"

/-- Minimal duration for range rendering, `MIN_RANGE_MS`. -/
def MIN_RANGE_MS : Int := 1000

/-- Model of JS `String.prototype.trim` on the leading side. -/
def dropLeadingWs : List Char → List Char
  | [] => []
  | c :: cs => if c.isWhitespace then dropLeadingWs cs else c :: cs

/-- Model of JS `String.prototype.trim`: strip leading and trailing whitespace. -/
def jsTrim (s : String) : String :=
  String.mk ((dropLeadingWs (dropLeadingWs s.toList.reverse).reverse))

/-- The label expression `event.title?.trim() || event.wikipedia_title?.trim() ||
`Event ${event.id}`` (empty strings are falsy). -/
def eventLabel (e : EventApi) : String :=
  if jsTrim e.title ≠ "" then jsTrim e.title
  else if jsTrim e.wikipedia_title ≠ "" then jsTrim e.wikipedia_title
  else "Event " ++ toString e.id

/-- The options record of `eventToTimelineItem` (`hideLabel?: boolean`). -/
structure EventToTimelineItemOptions where
  hideLabel : Option Bool := none
deriving DecidableEq

/-- The rendered timeline item.  `startMs`/`endMs` model the ISO-serialised
`start`/`end` fields; `type` is the literal `"range"` or `"point"`. -/
structure TimelineItem where
  id : Int
  content : String
  startMs : Instant
  title : String
  group : String
  style : String
  endMs : Option Instant := none
  type : String
deriving DecidableEq

/-- Model of `eventToTimelineItem`: resolve the extent, apply the end-of-day display
extension for events without an explicit end whose resolved start and end coincide,
decide point-versus-range rendering, and assemble the display fields. -/
def eventToTimelineItem (fb : String → Option Instant) (event : EventApi)
    (options : EventToTimelineItemOptions) : Option TimelineItem :=
  match eventStartDate fb event with
  | none => none
  | some start =>
    let end0 := eventEndDate fb event
    let noEndDate := !hasTruthyValue event.end_time
    let end1 : Option Instant :=
      if noEndDate ∧ (end0 = none ∨ end0 = some start) then some (endOfDay start) else end0
    let startMs := start
    let endMs := match end1 with | some e2 => e2 | none => startMs
    let hasRange := end1.isSome && decide (startMs < endMs) &&
      decide (MIN_RANGE_MS ≤ endMs - startMs)
    let label := eventLabel event
    let color := colorForCategory event.category_id
    some
      { id := event.id
        content := if options.hideLabel.getD false then "" else label
        startMs := startMs
        title := jsTrim event.description
        group :=
          match event.category_id with
          | some cid => toString cid
          | none => UNCATEGORIZED_GROUP_ID
        style := "border-left: 4px solid " ++ color ++ "; background-color: " ++ color ++ "22;"
        endMs := if hasRange then end1 else none
        type := if hasRange then "range" else "point" }

/-- Minimal visible span constant `MIN_SPAN_MS` (one day). -/
def MIN_SPAN_MS : Int := 86400000

/-- `MAX_SPAN_MS = 100 * 365.25 * 24 * 60 * 60 * 1000` (exact). -/
def MAX_SPAN_MS : ℚ := 3155760000000

/-- `FOCUSED_SPAN_MS = 10 * 365.25 * 24 * 60 * 60 * 1000` (exact). -/
def FOCUSED_SPAN_MS : ℚ := 315576000000

/-- Default for `minVisibleEvents`. -/
def DEFAULT_MIN_VISIBLE_EVENTS : Int := 30

/-- Default for `maxOverlappingEvents`. -/
def DEFAULT_MAX_OVERLAPPING_EVENTS : Int := 12

/-- Default for `shortEventFraction` (0.05). -/
def DEFAULT_SHORT_EVENT_FRACTION : ℚ := 1 / 20

/-- Default for the visible-span multiple above which an event is dropped as too
large to render (the source constant whose name ends in VISIBLE_RATIO). -/
def defaultMaxEventSpanVisibleRatio : ℚ := 3

/-- Model of `Partial<TimelineDisplayOptions>` together with the absent-options
case (every field absent). -/
structure TimelineDisplayOptions where
  minVisibleEvents : Option Int := none
  maxOverlappingEvents : Option Int := none
  shortEventFraction : Option ℚ := none
  maxEventSpanVisibleRatio : Option ℚ := none
deriving DecidableEq

/-- The caller's visible window `{ startMs, endMs }`. -/
structure VisibleWindow where
  startMs : Int
  endMs : Int
deriving DecidableEq

/-- Model of `eventOverlapsWindow`: resolvable events whose closed extent intersects
`[startMs, endMs]`. -/
def eventOverlapsWindow (fb : String → Option Instant) (event : EventApi)
    (startMs endMs : Int) : Bool :=
  match eventStartDate fb event with
  | none => false
  | some s =>
    let e := (eventEndDate fb event).getD s
    decide (s ≤ endMs) && decide (startMs ≤ e)

/-- Model of `minImportanceForVisibleSpan`: 0 up to the focused span, 0.8 from the
maximum span on, and in between linear in `Math.log` of the span. -/
noncomputable def minImportanceForVisibleSpan (visibleSpanMs : ℝ) : ℝ :=
  if visibleSpanMs ≤ ((FOCUSED_SPAN_MS : ℚ) : ℝ) then 0
  else if ((MAX_SPAN_MS : ℚ) : ℝ) ≤ visibleSpanMs then 0.8
  else
    (0.8 * (Real.log visibleSpanMs - Real.log ((FOCUSED_SPAN_MS : ℚ) : ℝ))) /
      (Real.log ((MAX_SPAN_MS : ℚ) : ℝ) - Real.log ((FOCUSED_SPAN_MS : ℚ) : ℝ))

/-- `365.25 * 24 * 60 * 60 * 1000` milliseconds per year (exact). -/
def msPerYear : ℚ := 31557600000

/-- Model of `maxEventsForVisibleSpan`.  In JS a span of exactly 0 gives
`120 / 0 = Infinity` and `Math.min(225, Math.ceil(Infinity)) = 225`; that
division-by-zero branch is spelt out explicitly here. -/
def maxEventsForVisibleSpan (visibleSpanMs : ℚ) (minVisibleEvents : Int) : Int :=
  let yearsVisible := visibleSpanMs / msPerYear
  if yearsVisible < 1 then
    if yearsVisible = 0 then 225 else min 225 (Int.ceil (120 / yearsVisible))
  else if yearsVisible < 5 then Int.ceil (120 / yearsVisible)
  else if yearsVisible < 20 then Int.ceil (75 / yearsVisible)
  else minVisibleEvents

/-- The selector's interval record: resolved extent plus the owning event. -/
structure TimeRange where
  startMs : Int
  endMs : Int
  event : EventApi
deriving DecidableEq

/-- Model of `timeRangeForEvent`: clamp the end to `Math.max(startMs, rawEnd)`. -/
def timeRangeForEvent (fb : String → Option Instant) (event : EventApi) : Option TimeRange :=
  match eventStartDate fb event with
  | none => none
  | some start =>
    let rawEnd := (eventEndDate fb event).getD start
    some { startMs := start, endMs := max start rawEnd, event := event }

/-- Number of intervals covering a point inclusively
(`point >= range.start && point <= range.end`). -/
def countCovering (ranges : List TimeRange) (point : Int) : Nat :=
  (ranges.filter fun r => decide (r.startMs ≤ point) && decide (point ≤ r.endMs)).length

/-- The sweep's critical points: `[...new Set(allRanges.flatMap((r) => [r.start,
r.end]))].sort(numeric)`. -/
def criticalPoints (ranges : List TimeRange) : List Int :=
  List.insertionSort (fun a b => a ≤ b) (ranges.flatMap fun r => [r.startMs, r.endMs]).dedup

/-- `maxConcurrentWithCandidate`: the maximum coverage count over the critical
points, accumulated from 0 with `Math.max`. -/
def maxConcurrentAt (ranges : List TimeRange) : Nat :=
  ((criticalPoints ranges).map (countCovering ranges)).foldl max 0

/-- Importance sort key: a missing score sorts below every present score, as the
comparator substitutes `-Infinity`. -/
def importanceKey (e : EventApi) : WithBot ℚ :=
  match e.importance_score with
  | none => ⊥
  | some q => (q : WithBot ℚ)

/-- Comparator relation of `(a, b) => (b.importance_score ?? -Infinity) -
(a.importance_score ?? -Infinity)`: descending by importance key. -/
def impDescRel (a b : EventApi) : Prop := importanceKey b ≤ importanceKey a

instance : DecidableRel impDescRel := fun a b => by
  unfold impDescRel; infer_instance

/-- JS stable sort with the importance-descending comparator (a consistent
comparator makes the stable sort unique, so insertion sort is a faithful model). -/
def sortByImportanceDesc (events : List EventApi) : List EventApi :=
  List.insertionSort impDescRel events

/-- The admission loop of `selectEventsUpToMaxConcurrent`: for each candidate in
order, drop it if it has no resolvable extent, otherwise admit it exactly when the
sweep over the critical points of the admitted intervals plus the candidate's
interval stays within `maxConcurrent`. -/
def selectLoop (fb : String → Option Instant) (maxConcurrent : Int) :
    List TimeRange → List EventApi → List TimeRange
  | selected, [] => selected
  | selected, candidate :: rest =>
    match timeRangeForEvent fb candidate with
    | none => selectLoop fb maxConcurrent selected rest
    | some candidateRange =>
      let allRanges := selected ++ [candidateRange]
      if (maxConcurrentAt allRanges : Int) ≤ maxConcurrent then
        selectLoop fb maxConcurrent allRanges rest
      else selectLoop fb maxConcurrent selected rest

/-- Model of `selectEventsUpToMaxConcurrent`: sort descending by importance, run the
admission loop from an empty admitted set, and return the admitted events. -/
def selectEventsUpToMaxConcurrent (fb : String → Option Instant)
    (events : List EventApi) (maxConcurrent : Int) : List EventApi :=
  (selectLoop fb maxConcurrent [] (sortByImportanceDesc events)).map fun r => r.event

/-- Model of `median`: sort ascending; odd length takes the middle element, even
length averages the two middle elements; empty input gives 0. -/
def median (values : List ℚ) : ℚ :=
  if values.length = 0 then 0
  else
    let sorted := List.insertionSort (fun a b => a ≤ b) values
    let mid := values.length / 2
    if values.length % 2 = 1 then sorted.getD mid 0
    else (sorted.getD (mid - 1) 0 + sorted.getD mid 0) / 2

/-- `event.importance_score ?? 0`. -/
def importanceOrZero (e : EventApi) : ℚ := e.importance_score.getD 0

/-- The insertion-ordered map `Map<number, boolean>`: `set` updates an existing key
in place and appends a fresh key. -/
def mapSet (m : List (Int × Bool)) (k : Int) (v : Bool) : List (Int × Bool) :=
  if m.any fun p => p.1 == k then m.map fun p => if p.1 = k then (k, v) else p
  else m ++ [(k, v)]

/-- Lookup in the insertion-ordered map model. -/
def mapGet (m : List (Int × Bool)) (k : Int) : Option Bool :=
  (m.find? fun p => p.1 == k).map fun p => p.2

/-- The per-event suppression decision of the loop body of
`computeHideLabelByEventId`: label hidden iff the display-duration fraction of the
visible span is strictly below `shortEventFraction` and the importance score
(missing defaults to 0) is strictly below the admitted-set median. -/
def hideLabelDecision (fb : String → Option Instant) (medianImportance : ℚ)
    (visibleSpanMs : Int) (shortEventFraction : ℚ) (event : EventApi) (start : Instant) :
    Bool :=
  let end0 := (eventEndDate fb event).getD start
  let noEndDate := !hasTruthyValue event.end_time
  let end1 := if noEndDate ∧ end0 = start then endOfDay start else end0
  let eventSpanMs := max 0 (end1 - start)
  decide ((eventSpanMs : ℚ) / (visibleSpanMs : ℚ) < shortEventFraction) &&
    decide (importanceOrZero event < medianImportance)

/-- One iteration of the `for (const event of events)` loop of
`computeHideLabelByEventId`: events without a resolvable start are skipped. -/
def hideLabelEntry (fb : String → Option Instant) (medianImportance : ℚ)
    (visibleSpanMs : Int) (shortEventFraction : ℚ) (out : List (Int × Bool))
    (event : EventApi) : List (Int × Bool) :=
  match eventStartDate fb event with
  | none => out
  | some start =>
    mapSet out event.id
      (hideLabelDecision fb medianImportance visibleSpanMs shortEventFraction event start)

/-- Model of `computeHideLabelByEventId`: no window, an empty admitted set or a
non-positive visible span give an empty map; otherwise the median importance of the
admitted set is computed once and every admitted event receives its decision. -/
def computeHideLabelByEventId (fb : String → Option Instant) (events : List EventApi)
    (visibleWindow : Option VisibleWindow) (shortEventFraction : ℚ) :
    List (Int × Bool) :=
  match visibleWindow with
  | none => []
  | some w =>
    if events.length = 0 then []
    else
      let visibleSpanMs := w.endMs - w.startMs
      if visibleSpanMs ≤ 0 then []
      else
        let medianImportance := median (events.map importanceOrZero)
        events.foldl
          (hideLabelEntry fb medianImportance visibleSpanMs shortEventFraction) []

/-- `options?.minVisibleEvents ?? DEFAULT_MIN_VISIBLE_EVENTS`. -/
def optMinVisibleEvents (options : TimelineDisplayOptions) : Int :=
  options.minVisibleEvents.getD DEFAULT_MIN_VISIBLE_EVENTS

/-- `options?.maxOverlappingEvents ?? DEFAULT_MAX_OVERLAPPING_EVENTS`. -/
def optMaxOverlapping (options : TimelineDisplayOptions) : Int :=
  options.maxOverlappingEvents.getD DEFAULT_MAX_OVERLAPPING_EVENTS

/-- `options?.shortEventFraction ?? DEFAULT_SHORT_EVENT_FRACTION`. -/
def optShortEventFraction (options : TimelineDisplayOptions) : ℚ :=
  options.shortEventFraction.getD DEFAULT_SHORT_EVENT_FRACTION

/-- `options?.maxEventSpanVisibleRatio ?? DEFAULT_MAX_EVENT_SPAN_VISIBLE_RATIO`. -/
def optMaxEventSpanRatio (options : TimelineDisplayOptions) : ℚ :=
  options.maxEventSpanVisibleRatio.getD defaultMaxEventSpanVisibleRatio

/-- The threshold actually used by the pipeline:
`visibleSpanMs != null ? minImportanceForVisibleSpan(visibleSpanMs) : 0`. -/
noncomputable def pipelineMinImportance (visibleSpanMs : Option ℚ) : ℝ :=
  match visibleSpanMs with
  | some s => minImportanceForVisibleSpan (s : ℝ)
  | none => 0

/-- The capacity actually used by the pipeline:
`visibleSpanMs != null ? maxEventsForVisibleSpan(...) : events.length`. -/
def pipelineMaxEvents (events : List EventApi) (visibleSpanMs : Option ℚ)
    (minVisibleEvents : Int) : Int :=
  match visibleSpanMs with
  | some s => maxEventsForVisibleSpan s minVisibleEvents
  | none => (events.length : Int)

/-- The `overlapping` stage: filter to events overlapping the visible window, or
pass everything through when no window is supplied. -/
def overlappingEvents (fb : String → Option Instant) (events : List EventApi)
    (visibleWindow : Option VisibleWindow) : List EventApi :=
  match visibleWindow with
  | some w => events.filter fun e => eventOverlapsWindow fb e w.startMs w.endMs
  | none => events

/-- The `pool` stage: when a positive span is known, drop events whose resolved
duration exceeds `maxEventSpanVisibleRatio * visibleSpanMs` (events without a
resolvable extent pass); otherwise `maxEventSpanMs` is `Infinity` and the filter is
skipped. -/
def pipelinePool (fb : String → Option Instant) (events : List EventApi)
    (visibleSpanMs : Option ℚ) (visibleWindow : Option VisibleWindow)
    (maxEventSpanVisibleRatio : ℚ) : List EventApi :=
  let overlapping := overlappingEvents fb events visibleWindow
  match visibleSpanMs with
  | some s =>
    if 0 < s then
      overlapping.filter fun e =>
        match timeRangeForEvent fb e with
        | none => true
        | some range =>
          decide (((range.endMs - range.startMs : Int) : ℚ) ≤ maxEventSpanVisibleRatio * s)
    else overlapping
  | none => overlapping

/-- The floor `minToShow = visibleWindow ? Math.min(minVisibleEvents, pool.length)
: 0`. -/
def pipelineMinToShow (fb : String → Option Instant) (events : List EventApi)
    (visibleSpanMs : Option ℚ) (visibleWindow : Option VisibleWindow)
    (options : TimelineDisplayOptions) : Int :=
  match visibleWindow with
  | some _ =>
    min (optMinVisibleEvents options)
      ((pipelinePool fb events visibleSpanMs visibleWindow
        (optMaxEventSpanRatio options)).length : Int)
  | none => 0

/-- The `aboveThreshold` stage: keep pool events with
`(importance_score ?? 0) >= minImportance`. -/
noncomputable def aboveThresholdEvents (fb : String → Option Instant)
    (events : List EventApi) (visibleSpanMs : Option ℚ)
    (visibleWindow : Option VisibleWindow) (options : TimelineDisplayOptions) :
    List EventApi :=
  (pipelinePool fb events visibleSpanMs visibleWindow
    (optMaxEventSpanRatio options)).filter fun e =>
      decide (pipelineMinImportance visibleSpanMs ≤ ((importanceOrZero e : ℚ) : ℝ))

/-- The `byImportance` stage: the thresholded pool sorted descending by importance. -/
noncomputable def pipelineByImportance (fb : String → Option Instant)
    (events : List EventApi) (visibleSpanMs : Option ℚ)
    (visibleWindow : Option VisibleWindow) (options : TimelineDisplayOptions) :
    List EventApi :=
  sortByImportanceDesc (aboveThresholdEvents fb events visibleSpanMs visibleWindow options)

/-- `takeCount = Math.max(minToShow, Math.min(maxEvents, byImportance.length))`. -/
noncomputable def pipelineTakeCount (fb : String → Option Instant)
    (events : List EventApi) (visibleSpanMs : Option ℚ)
    (visibleWindow : Option VisibleWindow) (options : TimelineDisplayOptions) : Int :=
  max (pipelineMinToShow fb events visibleSpanMs visibleWindow options)
    (min (pipelineMaxEvents events visibleSpanMs (optMinVisibleEvents options))
      ((pipelineByImportance fb events visibleSpanMs visibleWindow options).length : Int))

/-- Model of `arr.slice(0, n)`: a negative bound counts back from the end of the
array. -/
def jsSlice0 {α : Type} (n : Int) (l : List α) : List α :=
  if n < 0 then l.take ((l.length : Int) + n).toNat else l.take n.toNat

/-- `topEvents = byImportance.slice(0, takeCount)`. -/
noncomputable def pipelineTopEvents (fb : String → Option Instant)
    (events : List EventApi) (visibleSpanMs : Option ℚ)
    (visibleWindow : Option VisibleWindow) (options : TimelineDisplayOptions) :
    List EventApi :=
  jsSlice0 (pipelineTakeCount fb events visibleSpanMs visibleWindow options)
    (pipelineByImportance fb events visibleSpanMs visibleWindow options)

/-- The `toShow` stage: keep the top slice when it already meets the floor (or the
floor is 0); otherwise backfill from the whole pre-threshold pool ranked by
importance, sliced to `Math.max(minToShow, topEvents.length)`. -/
noncomputable def pipelineToShow (fb : String → Option Instant)
    (events : List EventApi) (visibleSpanMs : Option ℚ)
    (visibleWindow : Option VisibleWindow) (options : TimelineDisplayOptions) :
    List EventApi :=
  if pipelineMinToShow fb events visibleSpanMs visibleWindow options ≤
      ((pipelineTopEvents fb events visibleSpanMs visibleWindow options).length : Int) ∨
      pipelineMinToShow fb events visibleSpanMs visibleWindow options = 0 then
    pipelineTopEvents fb events visibleSpanMs visibleWindow options
  else
    jsSlice0
      (max (pipelineMinToShow fb events visibleSpanMs visibleWindow options)
        ((pipelineTopEvents fb events visibleSpanMs visibleWindow options).length : Int))
      (sortByImportanceDesc
        (pipelinePool fb events visibleSpanMs visibleWindow (optMaxEventSpanRatio options)))

/-- The `result` stage: the concurrency-bounded selector over `toShow`. -/
noncomputable def pipelineSelected (fb : String → Option Instant)
    (events : List EventApi) (visibleSpanMs : Option ℚ)
    (visibleWindow : Option VisibleWindow) (options : TimelineDisplayOptions) :
    List EventApi :=
  selectEventsUpToMaxConcurrent fb
    (pipelineToShow fb events visibleSpanMs visibleWindow options)
    (optMaxOverlapping options)

/-- Model of `eventsToTimelineItems`: run the selection pipeline, compute the
label-suppression map over the admitted set, materialize each admitted event and
drop the null items.  The `console.log` of the source is diagnostic only and has no
semantic effect, so it is not modelled. -/
noncomputable def eventsToTimelineItems (fb : String → Option Instant)
    (events : List EventApi) (visibleSpanMs : Option ℚ)
    (visibleWindow : Option VisibleWindow) (options : TimelineDisplayOptions) :
    List TimelineItem :=
  let result := pipelineSelected fb events visibleSpanMs visibleWindow options
  let hideLabelByEventId :=
    computeHideLabelByEventId fb result visibleWindow (optShortEventFraction options)
  (result.map fun event =>
    eventToTimelineItem fb event
      { hideLabel := some ((mapGet hideLabelByEventId event.id).getD false) }).reduceOption

/-- Coverage count of an instant by the closed display intervals of rendered items
(a point item covers exactly its start instant; a range item covers
`[startMs, endMs]`). -/
def itemCoverage (items : List TimelineItem) (point : Int) : Nat :=
  (items.filter fun it =>
    decide (it.startMs ≤ point) && decide (point ≤ it.endMs.getD it.startMs)).length

/-! ## Helper lemmas about folds, filters and maxima -/

lemma init_le_foldl_max (l : List Nat) (a : Nat) : a ≤ l.foldl max a := by
  induction l generalizing a with
  | nil => exact le_refl a
  | cons b bs ih => exact le_trans (le_max_left a b) (ih (max a b))

lemma mem_le_foldl_max {x : Nat} {l : List Nat} (a : Nat) (hx : x ∈ l) :
    x ≤ l.foldl max a := by
  induction l generalizing a with
  | nil => cases hx
  | cons b bs ih =>
    rcases List.mem_cons.mp hx with h | h
    · subst h
      exact le_trans (le_max_right a x) (init_le_foldl_max bs (max a x))
    · exact ih (max a b) h

lemma length_filter_mono {α : Type} (l : List α) (p q : α → Bool)
    (h : ∀ a ∈ l, p a = true → q a = true) :
    (l.filter p).length ≤ (l.filter q).length := by
  induction l with
  | nil => exact le_refl 0
  | cons a as ih =>
    have hstep := ih fun b hb => h b (List.mem_cons_of_mem a hb)
    by_cases hp : p a = true
    · have hq := h a (List.mem_cons_self a as) hp
      simp [List.filter_cons, hp, hq, Nat.succ_le_succ hstep]
    · simp only [List.filter_cons, Bool.not_eq_true] at hp ⊢
      rw [hp]
      by_cases hq : q a = true
      · simp only [hq, if_true, if_false, List.length_cons]
        exact le_trans hstep (Nat.le_succ _)
      · simp only [Bool.not_eq_true] at hq
        simp only [hq, if_false]
        exact hstep

lemma exists_max_mem : ∀ l : List Int, l ≠ [] → ∃ p ∈ l, ∀ q ∈ l, q ≤ p := by
  intro l
  induction l with
  | nil => intro h; exact absurd rfl h
  | cons a as ih =>
    intro _
    rcases eq_or_ne as [] with hnil | hne
    · subst hnil
      refine ⟨a, List.mem_cons_self a [], ?_⟩
      intro q hq
      rcases List.mem_cons.mp hq with h | h
      · exact le_of_eq h
      · cases h
    · obtain ⟨p, hp, hmax⟩ := ih hne
      by_cases hap : a ≤ p
      · refine ⟨p, List.mem_cons_of_mem a hp, ?_⟩
        intro q hq
        rcases List.mem_cons.mp hq with h | h
        · exact h ▸ hap
        · exact hmax q h
      · refine ⟨a, List.mem_cons_self a as, ?_⟩
        intro q hq
        rcases List.mem_cons.mp hq with h | h
        · exact le_of_eq h
        · exact le_trans (hmax q h) (le_of_not_le hap)

/-! ## The sweep over interval endpoints bounds coverage at every instant -/

lemma mem_criticalPoints {p : Int} {ranges : List TimeRange}
    (h : p ∈ ranges.flatMap fun r => [r.startMs, r.endMs]) :
    p ∈ criticalPoints ranges := by
  unfold criticalPoints
  have hperm := List.perm_insertionSort (fun a b : Int => a ≤ b)
    (ranges.flatMap fun r => [r.startMs, r.endMs]).dedup
  exact hperm.mem_iff.mpr (List.mem_dedup.mpr h)

lemma countCovering_le_maxConcurrentAt (ranges : List TimeRange) (t : Int) :
    countCovering ranges t ≤ maxConcurrentAt ranges := by
  by_cases h0 : countCovering ranges t = 0
  · rw [h0]; exact Nat.zero_le _
  · have hne : (ranges.filter fun r =>
        decide (r.startMs ≤ t) && decide (t ≤ r.endMs)) ≠ [] := by
      intro hnil
      exact h0 (by simp [countCovering, hnil])
    set covering := ranges.filter fun r =>
      decide (r.startMs ≤ t) && decide (t ≤ r.endMs) with hcov
    have hmapne : (covering.map fun r => r.startMs) ≠ [] := by
      intro hnil
      exact hne (List.map_eq_nil_iff.mp hnil)
    obtain ⟨p, hpmem, hpmax⟩ := exists_max_mem _ hmapne
    obtain ⟨r0, hr0mem, hr0p⟩ := List.mem_map.mp hpmem
    have hr0cond := List.of_mem_filter hr0mem
    have hr0t : t ≤ r0.endMs := by
      simpa using (Bool.and_elim_right hr0cond)
    have hr0s : r0.startMs ≤ t := by
      simpa using (Bool.and_elim_left hr0cond)
    have hpt : p ≤ t := hr0p ▸ hr0s
    have hcount : countCovering ranges t ≤ countCovering ranges p := by
      apply length_filter_mono
      intro r hr hcovt
      have hs : r.startMs ≤ t := by simpa using Bool.and_elim_left hcovt
      have he : t ≤ r.endMs := by simpa using Bool.and_elim_right hcovt
      have hrp : r.startMs ≤ p := by
        apply hpmax
        exact List.mem_map.mpr ⟨r, List.mem_filter.mpr ⟨hr, by simp [hs, he]⟩, rfl⟩
      simp only [Bool.and_eq_true, decide_eq_true_eq]
      exact ⟨hrp, le_trans hpt he⟩
    have hpcrit : p ∈ criticalPoints ranges := by
      apply mem_criticalPoints
      apply List.mem_flatMap.mpr
      refine ⟨r0, List.mem_of_mem_filter hr0mem, ?_⟩
      rw [← hr0p]
      exact List.mem_cons_self _ _
    have hfold : countCovering ranges p ≤ maxConcurrentAt ranges := by
      apply mem_le_foldl_max
      exact List.mem_map.mpr ⟨p, hpcrit, rfl⟩
    exact le_trans hcount hfold

/-! ## The admission loop preserves the coverage bound -/

/-- Every admitted interval record is exactly the resolved extent of its event. -/
def rangesConsistent (fb : String → Option Instant) (l : List TimeRange) : Prop :=
  ∀ r ∈ l, timeRangeForEvent fb r.event = some r

lemma timeRangeForEvent_event {fb : String → Option Instant} {c : EventApi}
    {r : TimeRange} (h : timeRangeForEvent fb c = some r) : r.event = c := by
  unfold timeRangeForEvent at h
  cases hs : eventStartDate fb c with
  | none => rw [hs] at h; cases h
  | some s =>
    rw [hs] at h
    simp only [Option.some.injEq] at h
    rw [← h]

lemma selectLoop_invariant (fb : String → Option Instant) (K : Int)
    (cands : List EventApi) :
    ∀ sel, (∀ t, (countCovering sel t : Int) ≤ K) → rangesConsistent fb sel →
      (∀ t, (countCovering (selectLoop fb K sel cands) t : Int) ≤ K) ∧
        rangesConsistent fb (selectLoop fb K sel cands) := by
  induction cands with
  | nil => intro sel hcov hcons; exact ⟨hcov, hcons⟩
  | cons c rest ih =>
    intro sel hcov hcons
    cases hr : timeRangeForEvent fb c with
    | none =>
      simp only [selectLoop, hr]
      exact ih sel hcov hcons
    | some r =>
      simp only [selectLoop, hr]
      by_cases hcheck : (maxConcurrentAt (sel ++ [r]) : Int) ≤ K
      · rw [if_pos hcheck]
        apply ih
        · intro t
          exact le_trans
            (Int.ofNat_le.mpr (countCovering_le_maxConcurrentAt (sel ++ [r]) t)) hcheck
        · intro x hx
          rcases List.mem_append.mp hx with h | h
          · exact hcons x h
          · rcases List.mem_singleton.mp h with h
            rw [h, timeRangeForEvent_event hr, hr]
      · rw [if_neg hcheck]
        exact ih sel hcov hcons

lemma filterMap_ranges (fb : String → Option Instant) (l : List TimeRange)
    (h : rangesConsistent fb l) :
    ((l.map fun r => r.event).filterMap (timeRangeForEvent fb)) = l := by
  induction l with
  | nil => rfl
  | cons r rs ih =>
    have hr := h r (List.mem_cons_self r rs)
    simp only [List.map_cons, List.filterMap_cons, hr]
    rw [ih fun x hx => h x (List.mem_cons_of_mem r hx)]

lemma selector_coverage (fb : String → Option Instant) (events : List EventApi)
    (K : Int) (hK : 0 ≤ K) (t : Int) :
    (countCovering
      ((selectEventsUpToMaxConcurrent fb events K).filterMap (timeRangeForEvent fb))
      t : Int) ≤ K := by
  have hbase : ∀ t', (countCovering ([] : List TimeRange) t' : Int) ≤ K := by
    intro t'
    simpa [countCovering] using hK
  obtain ⟨hcov, hcons⟩ := selectLoop_invariant fb K (sortByImportanceDesc events) []
    hbase (fun r hr => absurd hr (List.not_mem_nil r))
  unfold selectEventsUpToMaxConcurrent
  rw [filterMap_ranges fb _ hcons]
  exact hcov t

lemma selectLoop_consistent (fb : String → Option Instant) (K : Int)
    (cands : List EventApi) :
    ∀ sel, rangesConsistent fb sel → rangesConsistent fb (selectLoop fb K sel cands) := by
  induction cands with
  | nil => intro sel hcons; exact hcons
  | cons c rest ih =>
    intro sel hcons
    cases hr : timeRangeForEvent fb c with
    | none =>
      simp only [selectLoop, hr]
      exact ih sel hcons
    | some r =>
      simp only [selectLoop, hr]
      by_cases hcheck : (maxConcurrentAt (sel ++ [r]) : Int) ≤ K
      · rw [if_pos hcheck]
        apply ih
        intro x hx
        rcases List.mem_append.mp hx with h | h
        · exact hcons x h
        · rcases List.mem_singleton.mp h with h
          rw [h, timeRangeForEvent_event hr, hr]
      · rw [if_neg hcheck]
        exact ih sel hcons

lemma selector_members_resolvable (fb : String → Option Instant)
    (events : List EventApi) (K : Int) :
    ∀ e ∈ selectEventsUpToMaxConcurrent fb events K, timeRangeForEvent fb e ≠ none := by
  have hcons := selectLoop_consistent fb K (sortByImportanceDesc events) []
    (fun r hr => absurd hr (List.not_mem_nil r))
  intro e he
  unfold selectEventsUpToMaxConcurrent at he
  obtain ⟨r, hr, hre⟩ := List.mem_map.mp he
  have := hcons r hr
  rw [← hre]
  rw [this]
  exact Option.some_ne_none r

/-! ## Concrete fixtures for counterexamples and witnesses -/

/-- A fallback parser resolving no string, the behaviour of `new Date` on garbage. -/
def fbInvalid : String → Option Instant := fun _ => none

/-- A fallback parser resolving two non-pattern date strings to two distinct
instants inside the same UTC day, as the platform `new Date` does for date strings
carrying a time of day (the leading-pattern path alone only ever produces UTC
midnights). -/
def fbAB : String → Option Instant :=
  fun s => if s = "a" then some 0 else if s = "b" then some 1000 else none

/-- Point event at instant 0 (via the fallback parser), importance 1. -/
def evA : EventApi :=
  { id := 1, point_in_time := some { value := "a" }, importance_score := some 1 }

/-- Point event at instant 1000 (via the fallback parser), importance 2. -/
def evB : EventApi :=
  { id := 2, point_in_time := some { value := "b" }, importance_score := some 2 }

/-! ## C1: the concurrency-bounded selector -/

/-- C1 (counterexample to the claim as stated): for the bound `maxConcurrent = -1`
the selector admits nothing, and the instant 0 is covered by 0 admitted intervals,
which is not `≤ -1`; so the coverage bound does not hold for *every* bound. -/
theorem c1_counterexample :
    ¬ ((countCovering
      ((selectEventsUpToMaxConcurrent fbAB [evA] (-1)).filterMap (timeRangeForEvent fbAB))
      0 : Int) ≤ -1) := by decide

lemma selectLoop_append (fb : String → Option Instant) (K : Int) :
    ∀ (l1 l2 : List EventApi) (sel : List TimeRange),
      selectLoop fb K sel (l1 ++ l2) = selectLoop fb K (selectLoop fb K sel l1) l2 := by
  intro l1
  induction l1 with
  | nil => intro l2 sel; rfl
  | cons c rest ih =>
    intro l2 sel
    rw [List.cons_append]
    cases hr : timeRangeForEvent fb c with
    | none =>
      simp only [selectLoop, hr]
      exact ih l2 sel
    | some r =>
      simp only [selectLoop, hr]
      by_cases hc : (maxConcurrentAt (sel ++ [r]) : Int) ≤ K
      · rw [if_pos hc, if_pos hc]
        exact ih l2 _
      · rw [if_neg hc, if_neg hc]
        exact ih l2 sel

/-- C1 (amended to nonnegative bounds for the coverage invariant, the admission
rule unrestricted): (i) for every nonnegative bound, at every instant (not only at
interval endpoints) the number of admitted events whose closed resolved extents
cover that instant is at most `maxConcurrent`; (ii) every admitted event has a
resolvable extent; (iii) for every bound (negative included), when the
importance-sorted candidate sequence splits as `pre ++ c :: post` and `c` has
resolved interval `r`, the run from the admitted state reached after `pre`
continues with `r` appended exactly when the maximum coverage count of the
already-admitted intervals plus the candidate's interval, evaluated at the union
of their endpoints, is `≤ maxConcurrent`; and (iv) a candidate without a
resolvable extent leaves the admitted state unchanged. -/
theorem c1_selector_concurrency_bound (fb : String → Option Instant)
    (events : List EventApi) (maxConcurrent : Int) :
    (0 ≤ maxConcurrent →
      ∀ t : Int,
        (countCovering
          ((selectEventsUpToMaxConcurrent fb events maxConcurrent).filterMap
            (timeRangeForEvent fb)) t : Int) ≤ maxConcurrent) ∧
    (∀ e ∈ selectEventsUpToMaxConcurrent fb events maxConcurrent,
      timeRangeForEvent fb e ≠ none) ∧
    (∀ (pre post : List EventApi) (c : EventApi) (r : TimeRange),
      sortByImportanceDesc events = pre ++ c :: post →
      timeRangeForEvent fb c = some r →
      selectEventsUpToMaxConcurrent fb events maxConcurrent =
        (if (maxConcurrentAt (selectLoop fb maxConcurrent [] pre ++ [r]) : Int) ≤
            maxConcurrent
         then selectLoop fb maxConcurrent
            (selectLoop fb maxConcurrent [] pre ++ [r]) post
         else selectLoop fb maxConcurrent
            (selectLoop fb maxConcurrent [] pre) post).map (fun x => x.event)) ∧
    ∀ (pre post : List EventApi) (c : EventApi),
      sortByImportanceDesc events = pre ++ c :: post →
      timeRangeForEvent fb c = none →
      selectEventsUpToMaxConcurrent fb events maxConcurrent =
        (selectLoop fb maxConcurrent (selectLoop fb maxConcurrent [] pre) post).map
          (fun x => x.event) := by
  refine ⟨fun hK t => selector_coverage fb events maxConcurrent hK t,
    selector_members_resolvable fb events maxConcurrent, ?_, ?_⟩
  · intro pre post c r hsplit hr
    unfold selectEventsUpToMaxConcurrent
    rw [hsplit, selectLoop_append fb maxConcurrent pre (c :: post) []]
    simp only [selectLoop, hr]
  · intro pre post c hsplit hr
    unfold selectEventsUpToMaxConcurrent
    rw [hsplit, selectLoop_append fb maxConcurrent pre (c :: post) []]
    simp only [selectLoop, hr]

/-- Witness for the amended C1 at a concrete scenario: the coverage bound with
bound 1 at instant 1000, and the admission rule at the split putting the
importance-2 candidate first. -/
theorem c1_selector_concurrency_bound_witness :
    ((0 : Int) ≤ 1 ∧
      (countCovering
        ((selectEventsUpToMaxConcurrent fbAB [evA, evB] 1).filterMap
          (timeRangeForEvent fbAB)) 1000 : Int) ≤ 1) ∧
    (sortByImportanceDesc [evA, evB] = [] ++ evB :: [evA] ∧
      timeRangeForEvent fbAB evB = some { startMs := 1000, endMs := 1000, event := evB } ∧
      selectEventsUpToMaxConcurrent fbAB [evA, evB] 1 =
        (if (maxConcurrentAt (selectLoop fbAB 1 [] [] ++
              [{ startMs := 1000, endMs := 1000, event := evB }]) : Int) ≤ 1
         then selectLoop fbAB 1
            (selectLoop fbAB 1 [] [] ++ [{ startMs := 1000, endMs := 1000, event := evB }])
            [evA]
         else selectLoop fbAB 1 (selectLoop fbAB 1 [] []) [evA]).map (fun x => x.event)) :=
  ⟨⟨by decide, (c1_selector_concurrency_bound fbAB [evA, evB] 1).1 (by decide) 1000⟩,
    ⟨by decide, by decide,
      (c1_selector_concurrency_bound fbAB [evA, evB] 1).2.2.1 [] [evA] evB
        { startMs := 1000, endMs := 1000, event := evB } (by decide) (by decide)⟩⟩

/-! ## The importance threshold is trivial when no span is supplied -/

lemma aboveThresholdEvents_span_none (fb : String → Option Instant)
    (events : List EventApi) (window : Option VisibleWindow)
    (options : TimelineDisplayOptions)
    (h : ∀ e ∈ pipelinePool fb events none window (optMaxEventSpanRatio options),
      0 ≤ importanceOrZero e) :
    aboveThresholdEvents fb events none window options =
      pipelinePool fb events none window (optMaxEventSpanRatio options) := by
  unfold aboveThresholdEvents
  rw [List.filter_eq_self]
  intro e he
  simp only [pipelineMinImportance, decide_eq_true_eq]
  exact_mod_cast h e he

/-! ## C10: the pipeline's output concurrency -/

/-- C10 (amended): the resolved extents of the events admitted by the pipeline
never cover any instant more than `maxOverlappingEvents` times (for a nonnegative
bound) — the floor backfill indeed cannot break this because the selector runs
last.  The claim's stronger statement about the *materialized items'* display
intervals is false, because the end-of-day display extension is applied after
selection (see the counterexample). -/
theorem c10_selected_concurrency_bound (fb : String → Option Instant)
    (events : List EventApi) (visibleSpanMs : Option ℚ)
    (visibleWindow : Option VisibleWindow) (options : TimelineDisplayOptions)
    (hK : 0 ≤ optMaxOverlapping options) :
    ∀ t : Int,
      (countCovering
        ((pipelineSelected fb events visibleSpanMs visibleWindow options).filterMap
          (timeRangeForEvent fb)) t : Int) ≤ optMaxOverlapping options := by
  intro t
  unfold pipelineSelected
  exact selector_coverage fb _ (optMaxOverlapping options) hK t

/-- Witness for the amended C10 with the default options. -/
theorem c10_selected_concurrency_bound_witness :
    (0 : Int) ≤ optMaxOverlapping ({} : TimelineDisplayOptions) ∧
      (countCovering
        ((pipelineSelected fbInvalid [] none none ({} : TimelineDisplayOptions)).filterMap
          (timeRangeForEvent fbInvalid)) 0 : Int) ≤
        optMaxOverlapping ({} : TimelineDisplayOptions) :=
  ⟨by decide,
    c10_selected_concurrency_bound fbInvalid [] none none ({} : TimelineDisplayOptions)
      (by decide) 0⟩

/-- Options with a concurrency bound of 1. -/
def optsK1 : TimelineDisplayOptions := { maxOverlappingEvents := some 1 }

/-- C10 (counterexample to the claim as stated): two point events at instants 0 and
1000 of the same UTC day pass the selector with bound 1 (their selector intervals
`[0,0]` and `[1000,1000]` are disjoint), but the materializer extends both to the
end of the day, so the rendered items' closed display intervals both cover the
instant 1000: coverage 2 with `maxOverlappingEvents = 1`. -/
theorem c10_counterexample :
    optMaxOverlapping optsK1 = 1 ∧
      itemCoverage (eventsToTimelineItems fbAB [evA, evB] none none optsK1) 1000 = 2 := by
  constructor
  · decide
  · have hrw := aboveThresholdEvents_span_none fbAB [evA, evB] none optsK1 (by decide)
    simp only [eventsToTimelineItems, pipelineSelected, pipelineToShow, pipelineTopEvents,
      pipelineTakeCount, pipelineByImportance, pipelineMinToShow, pipelineMaxEvents, hrw]
    decide

/-! ## C2: the minimum-visible-events floor -/

lemma jsSlice0_length_of_nonneg {α : Type} (n : Int) (l : List α) (h : 0 ≤ n) :
    ((jsSlice0 n l).length : Int) = min n (l.length : Int) := by
  unfold jsSlice0
  rw [if_neg (not_lt.mpr h), List.length_take, Nat.cast_min, Int.toNat_of_nonneg h]

/-- Point event at instant 0, importance 2 (shares its instant with `evU2`). -/
def evU1 : EventApi :=
  { id := 1, point_in_time := some { value := "a" }, importance_score := some 2 }

/-- Point event at instant 0, importance 1. -/
def evU2 : EventApi :=
  { id := 2, point_in_time := some { value := "a" }, importance_score := some 1 }

/-- A degenerate active window. -/
def winZero : VisibleWindow := { startMs := 0, endMs := 0 }

/-- Options demanding a floor of 2 with a concurrency bound of 1. -/
def optsFloor2 : TimelineDisplayOptions :=
  { minVisibleEvents := some 2, maxOverlappingEvents := some 1 }

/-- C2 (counterexample to the claim as stated): with an active window, a pool of
two events at the same instant, `minVisibleEvents = 2` and
`maxOverlappingEvents = 1`, the pool after the too-large filter has 2 events
(meeting the floor premise) but the admitted result has only 1 event: the
concurrency selector runs after the floor backfill, so the floor does *not* take
priority over the concurrency cap. -/
theorem c2_counterexample :
    optMinVisibleEvents optsFloor2 = 2 ∧
      (pipelinePool fbAB [evU1, evU2] none (some winZero)
        (optMaxEventSpanRatio optsFloor2)).length = 2 ∧
      (eventsToTimelineItems fbAB [evU1, evU2] none (some winZero) optsFloor2).length = 1 := by
  refine ⟨by decide, by decide, ?_⟩
  have hrw := aboveThresholdEvents_span_none fbAB [evU1, evU2] (some winZero) optsFloor2
    (by decide)
  simp only [eventsToTimelineItems, pipelineSelected, pipelineToShow, pipelineTopEvents,
    pipelineTakeCount, pipelineByImportance, pipelineMinToShow, pipelineMaxEvents, hrw]
  decide

/-- C2 (amended): the floor is honoured by the candidate set handed to the
concurrency selector — with an active window, the `toShow` stage always contains
at least `min(minVisibleEvents, pool.length)` events — but the final admitted
result may be smaller, because the concurrency-bounded selector runs afterwards
(the concurrency cap, not the floor, has the last word). -/
theorem c2_floor_amended (fb : String → Option Instant) (events : List EventApi)
    (visibleSpanMs : Option ℚ) (w : VisibleWindow) (options : TimelineDisplayOptions) :
    min (optMinVisibleEvents options)
        ((pipelinePool fb events visibleSpanMs (some w)
          (optMaxEventSpanRatio options)).length : Int) ≤
      ((pipelineToShow fb events visibleSpanMs (some w) options).length : Int) := by
  have hmdef : pipelineMinToShow fb events visibleSpanMs (some w) options =
      min (optMinVisibleEvents options)
        ((pipelinePool fb events visibleSpanMs (some w)
          (optMaxEventSpanRatio options)).length : Int) := rfl
  rw [← hmdef]
  set m := pipelineMinToShow fb events visibleSpanMs (some w) options with hm
  by_cases hcond : m ≤
      ((pipelineTopEvents fb events visibleSpanMs (some w) options).length : Int) ∨ m = 0
  · rw [pipelineToShow, ← hm, if_pos hcond]
    rcases hcond with h | h
    · exact h
    · rw [h]; exact Nat.cast_nonneg _
  · rw [pipelineToShow, ← hm, if_neg hcond]
    push_neg at hcond
    have htop : ((pipelineTopEvents fb events visibleSpanMs (some w) options).length : Int) < m :=
      hcond.1
    have hm0 : 0 ≤ m := le_of_lt (lt_of_le_of_lt (Nat.cast_nonneg _) htop)
    have hkmax :
        max m ((pipelineTopEvents fb events visibleSpanMs (some w) options).length : Int) = m :=
      max_eq_left (le_of_lt htop)
    rw [hkmax, jsSlice0_length_of_nonneg _ _ hm0]
    apply le_min le_rfl
    rw [sortByImportanceDesc, List.length_insertionSort, hmdef]
    exact min_le_right _ _

/-! ## C9: degenerate inputs are safe -/

lemma jsSlice0_length_le {α : Type} (n : Int) (l : List α) :
    (jsSlice0 n l).length ≤ l.length := by
  unfold jsSlice0
  split <;> simp [List.length_take]

lemma jsSlice0_nil {α : Type} (n : Int) : jsSlice0 n ([] : List α) = [] := by
  unfold jsSlice0
  split <;> simp

lemma selectLoop_length_le (fb : String → Option Instant) (K : Int) :
    ∀ (cands : List EventApi) (sel : List TimeRange),
      (selectLoop fb K sel cands).length ≤ sel.length + cands.length := by
  intro cands
  induction cands with
  | nil => intro sel; simp [selectLoop]
  | cons c rest ih =>
    intro sel
    cases hr : timeRangeForEvent fb c with
    | none =>
      simp only [selectLoop, hr]
      exact le_trans (ih sel) (by simp)
    | some r =>
      simp only [selectLoop, hr]
      by_cases hc : (maxConcurrentAt (sel ++ [r]) : Int) ≤ K
      · rw [if_pos hc]
        have := ih (sel ++ [r])
        simp only [List.length_append, List.length_singleton, List.length_cons,
          List.length_nil] at this ⊢
        omega
      · rw [if_neg hc]
        exact le_trans (ih sel) (by simp)

lemma selectEvents_length_le (fb : String → Option Instant) (events : List EventApi)
    (K : Int) : (selectEventsUpToMaxConcurrent fb events K).length ≤ events.length := by
  unfold selectEventsUpToMaxConcurrent
  rw [List.length_map]
  have h := selectLoop_length_le fb K (sortByImportanceDesc events) []
  simpa [sortByImportanceDesc, List.length_insertionSort] using h

lemma overlappingEvents_length_le (fb : String → Option Instant) (events : List EventApi)
    (w : Option VisibleWindow) : (overlappingEvents fb events w).length ≤ events.length := by
  cases w <;> simp [overlappingEvents, List.length_filter_le]

lemma pipelinePool_none (fb : String → Option Instant) (events : List EventApi)
    (w : Option VisibleWindow) (r : ℚ) :
    pipelinePool fb events none w r = overlappingEvents fb events w := rfl

lemma pipelinePool_some (fb : String → Option Instant) (events : List EventApi)
    (w : Option VisibleWindow) (r s : ℚ) :
    pipelinePool fb events (some s) w r =
      if 0 < s then
        (overlappingEvents fb events w).filter fun e =>
          match timeRangeForEvent fb e with
          | none => true
          | some range => decide (((range.endMs - range.startMs : Int) : ℚ) ≤ r * s)
      else overlappingEvents fb events w := rfl

lemma pipelinePool_length_le (fb : String → Option Instant) (events : List EventApi)
    (span : Option ℚ) (w : Option VisibleWindow) (r : ℚ) :
    (pipelinePool fb events span w r).length ≤ events.length := by
  cases span with
  | none => exact overlappingEvents_length_le fb events w
  | some s =>
    rw [pipelinePool_some]
    by_cases hs : 0 < s
    · rw [if_pos hs]
      exact le_trans (List.length_filter_le _ _) (overlappingEvents_length_le fb events w)
    · rw [if_neg hs]
      exact overlappingEvents_length_le fb events w

lemma aboveThreshold_length_le (fb : String → Option Instant) (events : List EventApi)
    (span : Option ℚ) (w : Option VisibleWindow) (o : TimelineDisplayOptions) :
    (aboveThresholdEvents fb events span w o).length ≤ events.length :=
  le_trans (List.length_filter_le _ _) (pipelinePool_length_le fb events span w _)

lemma pipelineTopEvents_length_le (fb : String → Option Instant) (events : List EventApi)
    (span : Option ℚ) (w : Option VisibleWindow) (o : TimelineDisplayOptions) :
    (pipelineTopEvents fb events span w o).length ≤ events.length := by
  unfold pipelineTopEvents pipelineByImportance
  refine le_trans (jsSlice0_length_le _ _) ?_
  rw [sortByImportanceDesc, List.length_insertionSort]
  exact aboveThreshold_length_le fb events span w o

lemma pipelineToShow_length_le (fb : String → Option Instant) (events : List EventApi)
    (span : Option ℚ) (w : Option VisibleWindow) (o : TimelineDisplayOptions) :
    (pipelineToShow fb events span w o).length ≤ events.length := by
  unfold pipelineToShow
  split
  · exact pipelineTopEvents_length_le fb events span w o
  · refine le_trans (jsSlice0_length_le _ _) ?_
    rw [sortByImportanceDesc, List.length_insertionSort]
    exact pipelinePool_length_le fb events span w _

lemma overlappingEvents_nil (fb : String → Option Instant) (w : Option VisibleWindow) :
    overlappingEvents fb [] w = [] := by
  cases w <;> simp [overlappingEvents]

lemma pipelinePool_nil (fb : String → Option Instant) (span : Option ℚ)
    (w : Option VisibleWindow) (r : ℚ) : pipelinePool fb [] span w r = [] := by
  cases span with
  | none => rw [pipelinePool_none]; exact overlappingEvents_nil fb w
  | some s =>
    rw [pipelinePool_some, overlappingEvents_nil fb w]
    split <;> simp

lemma aboveThresholdEvents_nil (fb : String → Option Instant) (span : Option ℚ)
    (w : Option VisibleWindow) (o : TimelineDisplayOptions) :
    aboveThresholdEvents fb [] span w o = [] := by
  unfold aboveThresholdEvents
  rw [pipelinePool_nil]
  rfl

lemma pipelineTopEvents_nil (fb : String → Option Instant) (span : Option ℚ)
    (w : Option VisibleWindow) (o : TimelineDisplayOptions) :
    pipelineTopEvents fb [] span w o = [] := by
  unfold pipelineTopEvents pipelineByImportance
  rw [aboveThresholdEvents_nil]
  exact jsSlice0_nil _

lemma pipelineMinToShow_nil_nonpos (fb : String → Option Instant) (span : Option ℚ)
    (w : Option VisibleWindow) (o : TimelineDisplayOptions) :
    pipelineMinToShow fb [] span w o ≤ 0 := by
  unfold pipelineMinToShow
  cases w with
  | none => exact le_refl 0
  | some w' =>
    rw [pipelinePool_nil]
    exact min_le_right _ _

lemma pipelineToShow_nil (fb : String → Option Instant) (span : Option ℚ)
    (w : Option VisibleWindow) (o : TimelineDisplayOptions) :
    pipelineToShow fb [] span w o = [] := by
  unfold pipelineToShow
  rw [pipelineTopEvents_nil]
  rw [if_pos]
  exact Or.inl (by simpa using pipelineMinToShow_nil_nonpos fb span w o)

lemma eventsToTimelineItems_nil (fb : String → Option Instant) (span : Option ℚ)
    (window : Option VisibleWindow) (o : TimelineDisplayOptions) :
    eventsToTimelineItems fb [] span window o = [] := by
  unfold eventsToTimelineItems pipelineSelected
  rw [pipelineToShow_nil]
  cases window <;> rfl

/-- C9: degenerate inputs are total and safe — an empty pool yields the empty item
list for every span, window and options (in particular a zero-width window); the
pipeline never produces more items than input events for any input whatsoever
(well-definedness of every stage, including a `visibleSpanMs` of 0); and the
capacity function at span 0 — where the divisor `yearsVisible` is 0 — yields the
hard cap 225 (JS `Math.min(225, Math.ceil(120 / 0)) = 225`) rather than failing. -/
theorem c9_degenerate_inputs_safe :
    (∀ (fb : String → Option Instant) (span : Option ℚ) (window : Option VisibleWindow)
      (o : TimelineDisplayOptions), eventsToTimelineItems fb [] span window o = []) ∧
    (∀ (fb : String → Option Instant) (events : List EventApi) (span : Option ℚ)
      (window : Option VisibleWindow) (o : TimelineDisplayOptions),
      (eventsToTimelineItems fb events span window o).length ≤ events.length) ∧
    ∀ minVis : Int, maxEventsForVisibleSpan 0 minVis = 225 := by
  refine ⟨eventsToTimelineItems_nil, ?_, ?_⟩
  · intro fb events span window o
    unfold eventsToTimelineItems
    refine le_trans (List.reduceOption_length_le _) ?_
    rw [List.length_map]
    unfold pipelineSelected
    exact le_trans (selectEvents_length_le fb _ _) (pipelineToShow_length_le fb events span window o)
  · intro minVis
    simp [maxEventsForVisibleSpan]

/-! ## C3: the capacity function across its branches -/

lemma maxEvents_b1 (s : ℚ) (minVis : Int) (h1 : s / msPerYear < 1) (h0 : ¬ s / msPerYear = 0) :
    maxEventsForVisibleSpan s minVis = min 225 (Int.ceil (120 / (s / msPerYear))) := by
  unfold maxEventsForVisibleSpan
  rw [if_pos h1, if_neg h0]

lemma maxEvents_b2 (s : ℚ) (minVis : Int) (h1 : ¬ s / msPerYear < 1) (h5 : s / msPerYear < 5) :
    maxEventsForVisibleSpan s minVis = Int.ceil (120 / (s / msPerYear)) := by
  unfold maxEventsForVisibleSpan
  rw [if_neg h1, if_pos h5]

lemma maxEvents_b3 (s : ℚ) (minVis : Int) (h1 : ¬ s / msPerYear < 1)
    (h5 : ¬ s / msPerYear < 5) (h20 : s / msPerYear < 20) :
    maxEventsForVisibleSpan s minVis = Int.ceil (75 / (s / msPerYear)) := by
  unfold maxEventsForVisibleSpan
  rw [if_neg h1, if_neg h5, if_pos h20]

lemma maxEvents_b4 (s : ℚ) (minVis : Int) (h1 : ¬ s / msPerYear < 1)
    (h5 : ¬ s / msPerYear < 5) (h20 : ¬ s / msPerYear < 20) :
    maxEventsForVisibleSpan s minVis = minVis := by
  unfold maxEventsForVisibleSpan
  rw [if_neg h1, if_neg h5, if_neg h20]

lemma ceil120_ge120 (y : ℚ) (h0 : 0 < y) (h1 : y ≤ 1) : (120 : Int) ≤ Int.ceil (120 / y) := by
  have h : (120 : ℚ) ≤ 120 / y := by
    rw [le_div_iff₀ h0]
    nlinarith
  calc (120 : Int) = Int.ceil ((120 : Int) : ℚ) := (Int.ceil_intCast 120).symm
    _ ≤ Int.ceil (120 / y) := Int.ceil_le_ceil (by exact_mod_cast h)

lemma ceil120_ge24 (y : ℚ) (h0 : 0 < y) (h5 : y ≤ 5) : (24 : Int) ≤ Int.ceil (120 / y) := by
  have h : (24 : ℚ) ≤ 120 / y := by
    rw [le_div_iff₀ h0]
    nlinarith
  calc (24 : Int) = Int.ceil ((24 : Int) : ℚ) := (Int.ceil_intCast 24).symm
    _ ≤ Int.ceil (120 / y) := Int.ceil_le_ceil (by exact_mod_cast h)

lemma ceil120_le120 (y : ℚ) (h1 : 1 ≤ y) : Int.ceil (120 / y) ≤ 120 := by
  rw [Int.ceil_le]
  push_cast
  exact div_le_self (by norm_num) h1

lemma ceil75_le15 (y : ℚ) (h5 : 5 ≤ y) : Int.ceil (75 / y) ≤ 15 := by
  have h0 : (0 : ℚ) < y := lt_of_lt_of_le (by norm_num) h5
  rw [Int.ceil_le]
  push_cast
  rw [div_le_iff₀ h0]
  nlinarith

lemma ceil75_ge4 (y : ℚ) (h0 : 0 < y) (h20 : y < 20) : (4 : Int) ≤ Int.ceil (75 / y) := by
  have h : (3 : ℚ) < 75 / y := by
    rw [lt_div_iff₀ h0]
    nlinarith
  have := Int.lt_ceil.mpr (show ((3 : Int) : ℚ) < 75 / y by exact_mod_cast h)
  omega

lemma ceil_div_antitone (a y1 y2 : ℚ) (ha : 0 ≤ a) (h0 : 0 < y1) (h12 : y1 ≤ y2) :
    Int.ceil (a / y2) ≤ Int.ceil (a / y1) :=
  Int.ceil_le_ceil (div_le_div_of_nonneg_left ha h0 h12)

lemma msPerYear_pos : (0 : ℚ) < msPerYear := by norm_num [msPerYear]

lemma maxEvents_mono_core (minVis : Int) (s1 s2 : ℚ) (h1 : 0 < s1) (h12 : s1 ≤ s2)
    (h : minVis ≤ 4 ∨ s2 < 20 * msPerYear) :
    maxEventsForVisibleSpan s2 minVis ≤ maxEventsForVisibleSpan s1 minVis := by
  have hY := msPerYear_pos
  have hy1 : 0 < s1 / msPerYear := div_pos h1 hY
  have hy12 : s1 / msPerYear ≤ s2 / msPerYear := by
    exact (div_le_div_iff_of_pos_right hY).mpr h12
  have hy2 : 0 < s2 / msPerYear := lt_of_lt_of_le hy1 hy12
  have hy1ne : ¬ s1 / msPerYear = 0 := ne_of_gt hy1
  have hy2ne : ¬ s2 / msPerYear = 0 := ne_of_gt hy2
  rcases lt_or_le (s2 / msPerYear) 1 with hy2a | hy2a
  · have hy1a : s1 / msPerYear < 1 := lt_of_le_of_lt hy12 hy2a
    rw [maxEvents_b1 s2 minVis hy2a hy2ne, maxEvents_b1 s1 minVis hy1a hy1ne]
    exact min_le_min le_rfl (ceil_div_antitone 120 _ _ (by norm_num) hy1 hy12)
  · rcases lt_or_le (s2 / msPerYear) 5 with hy2b | hy2b
    · rw [maxEvents_b2 s2 minVis (not_lt.mpr hy2a) hy2b]
      rcases lt_or_le (s1 / msPerYear) 1 with hy1a | hy1a
      · rw [maxEvents_b1 s1 minVis hy1a hy1ne]
        refine le_min ?_ (ceil_div_antitone 120 _ _ (by norm_num) hy1 hy12)
        exact le_trans (ceil120_le120 _ hy2a) (by norm_num)
      · rw [maxEvents_b2 s1 minVis (not_lt.mpr hy1a) (lt_of_le_of_lt hy12 hy2b)]
        exact ceil_div_antitone 120 _ _ (by norm_num) hy1 hy12
    · rcases lt_or_le (s2 / msPerYear) 20 with hy2c | hy2c
      · rw [maxEvents_b3 s2 minVis (not_lt.mpr hy2a) (not_lt.mpr hy2b) hy2c]
        have hf2 : Int.ceil (75 / (s2 / msPerYear)) ≤ 15 := ceil75_le15 _ hy2b
        rcases lt_or_le (s1 / msPerYear) 1 with hy1a | hy1a
        · rw [maxEvents_b1 s1 minVis hy1a hy1ne]
          refine le_min (le_trans hf2 (by norm_num)) ?_
          exact le_trans hf2 (le_trans (by norm_num) (ceil120_ge120 _ hy1 (le_of_lt hy1a)))
        · rcases lt_or_le (s1 / msPerYear) 5 with hy1b | hy1b
          · rw [maxEvents_b2 s1 minVis (not_lt.mpr hy1a) hy1b]
            exact le_trans hf2
              (le_trans (by norm_num) (ceil120_ge24 _ hy1 (le_of_lt hy1b)))
          · rw [maxEvents_b3 s1 minVis (not_lt.mpr hy1a) (not_lt.mpr hy1b)
              (lt_of_le_of_lt hy12 hy2c)]
            exact ceil_div_antitone 75 _ _ (by norm_num) hy1 hy12
      · rw [maxEvents_b4 s2 minVis (not_lt.mpr hy2a) (not_lt.mpr hy2b) (not_lt.mpr hy2c)]
        have hmv : minVis ≤ 4 := by
          rcases h with h | h
          · exact h
          · exfalso
            have : s2 / msPerYear < 20 := by
              rw [div_lt_iff₀ hY]
              linarith [h]
            exact absurd this (not_lt.mpr hy2c)
        rcases lt_or_le (s1 / msPerYear) 1 with hy1a | hy1a
        · rw [maxEvents_b1 s1 minVis hy1a hy1ne]
          refine le_trans hmv (le_min (by norm_num) ?_)
          exact le_trans (by norm_num) (ceil120_ge120 _ hy1 (le_of_lt hy1a))
        · rcases lt_or_le (s1 / msPerYear) 5 with hy1b | hy1b
          · rw [maxEvents_b2 s1 minVis (not_lt.mpr hy1a) hy1b]
            exact le_trans hmv
              (le_trans (by norm_num) (ceil120_ge24 _ hy1 (le_of_lt hy1b)))
          · rcases lt_or_le (s1 / msPerYear) 20 with hy1c | hy1c
            · rw [maxEvents_b3 s1 minVis (not_lt.mpr hy1a) (not_lt.mpr hy1b) hy1c]
              exact le_trans hmv (ceil75_ge4 _ hy1 hy1c)
            · rw [maxEvents_b4 s1 minVis (not_lt.mpr hy1a) (not_lt.mpr hy1b)
                (not_lt.mpr hy1c)]

/-- C3 (counterexample to the claim as stated): with the default
`minVisibleEvents = 30`, a 19-year span gets capacity `ceil(75/19) = 4` while a
20-year span gets the flat `minVisibleEvents = 30`: the function jumps upward at
the 20-year breakpoint, so it is not monotonically non-increasing across the whole
domain. -/
theorem c3_counterexample :
    (19 * msPerYear : ℚ) ≤ 20 * msPerYear ∧
      maxEventsForVisibleSpan (19 * msPerYear) 30 <
        maxEventsForVisibleSpan (20 * msPerYear) 30 := by
  have hY : (msPerYear : ℚ) ≠ 0 := ne_of_gt msPerYear_pos
  have h19 : (19 * msPerYear : ℚ) / msPerYear = 19 := mul_div_cancel_right₀ 19 hY
  have h20 : (20 * msPerYear : ℚ) / msPerYear = 20 := mul_div_cancel_right₀ 20 hY
  constructor
  · nlinarith [msPerYear_pos]
  · have hv1 : maxEventsForVisibleSpan (19 * msPerYear) 30 = 4 := by
      rw [maxEvents_b3 _ 30 (by rw [h19]; norm_num) (by rw [h19]; norm_num)
        (by rw [h19]; norm_num), h19]
      rw [show Int.ceil ((75 : ℚ) / 19) = 4 by rw [Int.ceil_eq_iff]; norm_num]
    have hv2 : maxEventsForVisibleSpan (20 * msPerYear) 30 = 30 := by
      rw [maxEvents_b4 _ 30 (by rw [h20]; norm_num) (by rw [h20]; norm_num)
        (by rw [h20]; norm_num)]
    rw [hv1, hv2]
    norm_num

/-- C3 (amended): the capacity function is monotonically non-increasing in the
visible span within every branch and across the 1-year and 5-year breakpoints for
every `minVisibleEvents` (second conjunct: the whole domain below 20 years), and
across the entire positive domain — including the 20-year breakpoint — whenever
`minVisibleEvents ≤ 4` (first conjunct); with a larger floor such as the default
30 it jumps upward at the 20-year breakpoint, as the counterexample shows. -/
theorem c3_capacity_monotonicity_amended :
    (∀ (minVis : Int) (s1 s2 : ℚ), minVis ≤ 4 → 0 < s1 → s1 ≤ s2 →
      maxEventsForVisibleSpan s2 minVis ≤ maxEventsForVisibleSpan s1 minVis) ∧
    ∀ (minVis : Int) (s1 s2 : ℚ), 0 < s1 → s1 ≤ s2 → s2 < 20 * msPerYear →
      maxEventsForVisibleSpan s2 minVis ≤ maxEventsForVisibleSpan s1 minVis :=
  ⟨fun minVis s1 s2 hmv h1 h12 => maxEvents_mono_core minVis s1 s2 h1 h12 (Or.inl hmv),
    fun minVis s1 s2 h1 h12 h20 => maxEvents_mono_core minVis s1 s2 h1 h12 (Or.inr h20)⟩

/-! ## C4: the importance-threshold function -/

lemma FOCUSED_pos : (0 : ℝ) < ((FOCUSED_SPAN_MS : ℚ) : ℝ) := by
  norm_num [FOCUSED_SPAN_MS]

lemma FOCUSED_lt_MAX : ((FOCUSED_SPAN_MS : ℚ) : ℝ) < ((MAX_SPAN_MS : ℚ) : ℝ) := by
  norm_num [FOCUSED_SPAN_MS, MAX_SPAN_MS]

lemma logSpanGap_pos :
    0 < Real.log ((MAX_SPAN_MS : ℚ) : ℝ) - Real.log ((FOCUSED_SPAN_MS : ℚ) : ℝ) :=
  sub_pos.mpr (Real.log_lt_log FOCUSED_pos FOCUSED_lt_MAX)

lemma minImp_low (s : ℝ) (h : s ≤ ((FOCUSED_SPAN_MS : ℚ) : ℝ)) :
    minImportanceForVisibleSpan s = 0 := by
  unfold minImportanceForVisibleSpan
  rw [if_pos h]

lemma minImp_high (s : ℝ) (h : ((MAX_SPAN_MS : ℚ) : ℝ) ≤ s) :
    minImportanceForVisibleSpan s = 0.8 := by
  unfold minImportanceForVisibleSpan
  rw [if_neg (not_le.mpr (lt_of_lt_of_le FOCUSED_lt_MAX h)), if_pos h]

lemma minImp_mid (s : ℝ) (h1 : ((FOCUSED_SPAN_MS : ℚ) : ℝ) < s)
    (h2 : s < ((MAX_SPAN_MS : ℚ) : ℝ)) :
    minImportanceForVisibleSpan s =
      (0.8 * (Real.log s - Real.log ((FOCUSED_SPAN_MS : ℚ) : ℝ))) /
        (Real.log ((MAX_SPAN_MS : ℚ) : ℝ) - Real.log ((FOCUSED_SPAN_MS : ℚ) : ℝ)) := by
  unfold minImportanceForVisibleSpan
  rw [if_neg (not_le.mpr h1), if_neg (not_le.mpr h2)]

lemma minImp_mid_nonneg (s : ℝ) (h1 : ((FOCUSED_SPAN_MS : ℚ) : ℝ) < s) :
    0 ≤ (0.8 * (Real.log s - Real.log ((FOCUSED_SPAN_MS : ℚ) : ℝ))) /
        (Real.log ((MAX_SPAN_MS : ℚ) : ℝ) - Real.log ((FOCUSED_SPAN_MS : ℚ) : ℝ)) := by
  apply div_nonneg _ (le_of_lt logSpanGap_pos)
  have hlog := Real.log_le_log FOCUSED_pos (le_of_lt h1)
  nlinarith

lemma minImp_mid_le_cap (s : ℝ) (h1 : ((FOCUSED_SPAN_MS : ℚ) : ℝ) < s)
    (h2 : s < ((MAX_SPAN_MS : ℚ) : ℝ)) :
    (0.8 * (Real.log s - Real.log ((FOCUSED_SPAN_MS : ℚ) : ℝ))) /
        (Real.log ((MAX_SPAN_MS : ℚ) : ℝ) - Real.log ((FOCUSED_SPAN_MS : ℚ) : ℝ)) ≤ 0.8 := by
  rw [div_le_iff₀ logSpanGap_pos]
  have hlog := Real.log_le_log (lt_trans FOCUSED_pos h1) (le_of_lt h2)
  nlinarith

lemma minImp_nonneg (s : ℝ) : 0 ≤ minImportanceForVisibleSpan s := by
  unfold minImportanceForVisibleSpan
  split_ifs with h1 h2
  · exact le_refl 0
  · norm_num
  · exact minImp_mid_nonneg s (not_le.mp h1)

/-- C4: the importance-threshold function returns 0 at or below the focused span,
the fixed cap 0.8 at or above the maximum span, a linear function of
`Real.log` of the span strictly in between, and is monotonically non-decreasing on
positive spans; and the pipeline uses the threshold 0 when no visible span is
supplied. -/
theorem c4_threshold_function :
    (∀ s : ℝ, s ≤ ((FOCUSED_SPAN_MS : ℚ) : ℝ) → minImportanceForVisibleSpan s = 0) ∧
    (∀ s : ℝ, ((MAX_SPAN_MS : ℚ) : ℝ) ≤ s → minImportanceForVisibleSpan s = 0.8) ∧
    (∃ a b : ℝ, ∀ s : ℝ, ((FOCUSED_SPAN_MS : ℚ) : ℝ) < s →
      s < ((MAX_SPAN_MS : ℚ) : ℝ) →
      minImportanceForVisibleSpan s = a * Real.log s + b) ∧
    (∀ s1 s2 : ℝ, 0 < s1 → s1 ≤ s2 →
      minImportanceForVisibleSpan s1 ≤ minImportanceForVisibleSpan s2) ∧
    pipelineMinImportance none = 0 := by
  refine ⟨minImp_low, minImp_high, ?_, ?_, rfl⟩
  · refine ⟨0.8 / (Real.log ((MAX_SPAN_MS : ℚ) : ℝ) - Real.log ((FOCUSED_SPAN_MS : ℚ) : ℝ)),
      -(0.8 * Real.log ((FOCUSED_SPAN_MS : ℚ) : ℝ)) /
        (Real.log ((MAX_SPAN_MS : ℚ) : ℝ) - Real.log ((FOCUSED_SPAN_MS : ℚ) : ℝ)), ?_⟩
    intro s h1 h2
    rw [minImp_mid s h1 h2]
    ring
  · intro s1 s2 h0 h12
    rcases le_or_lt s1 ((FOCUSED_SPAN_MS : ℚ) : ℝ) with ha | ha
    · rw [minImp_low s1 ha]
      exact minImp_nonneg s2
    · rcases lt_or_le s1 ((MAX_SPAN_MS : ℚ) : ℝ) with hb | hb
      · rcases lt_or_le s2 ((MAX_SPAN_MS : ℚ) : ℝ) with hc | hc
        · rw [minImp_mid s1 ha hb, minImp_mid s2 (lt_of_lt_of_le ha h12) hc]
          rw [div_le_div_iff_of_pos_right logSpanGap_pos]
          have hlog := Real.log_le_log h0 h12
          nlinarith
        · rw [minImp_high s2 hc, minImp_mid s1 ha hb]
          exact minImp_mid_le_cap s1 ha hb
      · rw [minImp_high s1 hb, minImp_high s2 (le_trans hb h12)]

/-- Witness for C4 at the two span constants. -/
theorem c4_threshold_function_witness :
    (((FOCUSED_SPAN_MS : ℚ) : ℝ) ≤ ((FOCUSED_SPAN_MS : ℚ) : ℝ) ∧
      minImportanceForVisibleSpan ((FOCUSED_SPAN_MS : ℚ) : ℝ) = 0) ∧
    (((MAX_SPAN_MS : ℚ) : ℝ) ≤ ((MAX_SPAN_MS : ℚ) : ℝ) ∧
      minImportanceForVisibleSpan ((MAX_SPAN_MS : ℚ) : ℝ) = 0.8) ∧
    ((0 : ℝ) < ((FOCUSED_SPAN_MS : ℚ) : ℝ) ∧
      ((FOCUSED_SPAN_MS : ℚ) : ℝ) ≤ ((MAX_SPAN_MS : ℚ) : ℝ) ∧
      minImportanceForVisibleSpan ((FOCUSED_SPAN_MS : ℚ) : ℝ) ≤
        minImportanceForVisibleSpan ((MAX_SPAN_MS : ℚ) : ℝ)) :=
  ⟨⟨le_rfl, c4_threshold_function.1 _ le_rfl⟩,
    ⟨le_rfl, c4_threshold_function.2.1 _ le_rfl⟩,
    ⟨FOCUSED_pos, le_of_lt FOCUSED_lt_MAX,
      c4_threshold_function.2.2.2.1 _ _ FOCUSED_pos (le_of_lt FOCUSED_lt_MAX)⟩⟩

/-- Witness for the amended C3 at concrete spans (1 year versus 2 years, floor 4). -/
theorem c3_capacity_monotonicity_amended_witness :
    ((4 : Int) ≤ 4 ∧ (0 : ℚ) < msPerYear ∧ (msPerYear : ℚ) ≤ 2 * msPerYear) ∧
      maxEventsForVisibleSpan (2 * msPerYear) 4 ≤ maxEventsForVisibleSpan msPerYear 4 :=
  ⟨⟨le_refl 4, by norm_num [msPerYear], by norm_num [msPerYear]⟩,
    c3_capacity_monotonicity_amended.1 4 msPerYear (2 * msPerYear) (le_refl 4)
      (by norm_num [msPerYear]) (by norm_num [msPerYear])⟩

/-! ## C5: BCE and componentwise date parsing -/

/-- C5: the value `"-60"` — with an ASCII hyphen or with the Unicode minus U+2212 —
resolves to the constructed instant of UTC year −60, January 1, which differs from
the years 1960 and 60 instants; leading `[sign]YYYY[-MM[-DD]]` values are parsed
componentwise with missing month and day defaulting to January 1; and a value
matching neither the leading pattern nor the fallback general date parser resolves
to `none` rather than an error. -/
theorem c5_bce_parsing :
    (∀ fb : String → Option Instant,
      parseEventTime fb (some { value := "-60" }) = some (makeUTCDate (-60) 0 1)) ∧
    (∀ fb : String → Option Instant,
      parseEventTime fb (some { value := "−60" }) = some (makeUTCDate (-60) 0 1)) ∧
    (makeUTCDate (-60) 0 1 ≠ makeUTCDate 1960 0 1 ∧
      makeUTCDate (-60) 0 1 ≠ makeUTCDate 60 0 1) ∧
    (∀ fb : String → Option Instant,
      parseEventTime fb (some { value := "1943-06-01" }) = some (makeUTCDate 1943 5 1) ∧
      parseEventTime fb (some { value := "1943-06" }) = some (makeUTCDate 1943 5 1) ∧
      parseEventTime fb (some { value := "1943" }) = some (makeUTCDate 1943 0 1) ∧
      parseEventTime fb (some { value := "1939-09-01" }) = some (makeUTCDate 1939 8 1)) ∧
    ∀ (fb : String → Option Instant) (v : String),
      parseLeadingDate (normalizeMinus v.toList) = none →
      fb (String.mk (normalizeMinus v.toList)) = none →
      parseEventTimeValue fb v = none := by
  refine ⟨fun fb => rfl, fun fb => rfl, by decide, fun fb => ⟨rfl, rfl, rfl, rfl⟩, ?_⟩
  intro fb v h1 h2
  unfold parseEventTimeValue
  simp only [h1]
  exact h2

/-- Witness for the final conjunct of C5 on a value the leading pattern rejects and
the fallback rejects. -/
theorem c5_bce_parsing_witness :
    parseLeadingDate (normalizeMinus (String.toList "not a date")) = none ∧
      fbInvalid (String.mk (normalizeMinus (String.toList "not a date"))) = none ∧
      parseEventTimeValue fbInvalid "not a date" = none :=
  ⟨by decide, rfl, c5_bce_parsing.2.2.2.2 fbInvalid "not a date" (by decide) rfl⟩

/-! ## C6: extent resolution fallback order -/

lemma parseEventTime_none_of_not_truthy (fb : String → Option Instant)
    (t : Option EventTimeValue) (h : hasTruthyValue t = false) :
    parseEventTime fb t = none := by
  cases t with
  | none => rfl
  | some tv =>
    unfold hasTruthyValue at h
    simp only [bne_eq_false_iff_eq] at h
    show (if tv.value = "" then none else parseEventTimeValue fb tv.value) = none
    rw [if_pos h]

/-- C6: when both `startTime` and `endTime` are truthy the extent is resolved
directly from them; otherwise the start falls back through
`start ?? pointInTime ?? end` and the end through `end ?? pointInTime ?? start`;
in particular an event with a start and a point-in-time but no truthy end resolves
its end from the point-in-time; and an event none of whose three fields resolves
has no extent and is excluded from all temporal processing (no time range, never
overlaps a window, materializes to no item). -/
theorem c6_extent_fallback :
    (∀ (fb : String → Option Instant) (e : EventApi), hasStartAndEnd e = true →
      eventStartDate fb e = parseEventTime fb e.start_time ∧
      eventEndDate fb e = parseEventTime fb e.end_time) ∧
    (∀ (fb : String → Option Instant) (e : EventApi), hasStartAndEnd e = false →
      eventStartDate fb e = ((parseEventTime fb e.start_time).orElse fun _ =>
        (parseEventTime fb e.point_in_time).orElse fun _ =>
          parseEventTime fb e.end_time) ∧
      eventEndDate fb e = ((parseEventTime fb e.end_time).orElse fun _ =>
        (parseEventTime fb e.point_in_time).orElse fun _ =>
          parseEventTime fb e.start_time)) ∧
    (∀ (fb : String → Option Instant) (e : EventApi) (t : Instant),
      hasTruthyValue e.end_time = false →
      parseEventTime fb e.point_in_time = some t →
      eventEndDate fb e = some t) ∧
    ∀ (fb : String → Option Instant) (e : EventApi) (opts : EventToTimelineItemOptions),
      parseEventTime fb e.start_time = none →
      parseEventTime fb e.point_in_time = none →
      parseEventTime fb e.end_time = none →
      eventStartDate fb e = none ∧ eventEndDate fb e = none ∧
        timeRangeForEvent fb e = none ∧
        (∀ a b : Int, eventOverlapsWindow fb e a b = false) ∧
        eventToTimelineItem fb e opts = none := by
  refine ⟨?_, ?_, ?_, ?_⟩
  · intro fb e h
    unfold eventStartDate eventEndDate
    rw [if_pos h, if_pos h]
    exact ⟨rfl, rfl⟩
  · intro fb e h
    unfold eventStartDate eventEndDate
    rw [if_neg (by rw [h]; exact Bool.false_ne_true), if_neg (by rw [h]; exact Bool.false_ne_true)]
    exact ⟨rfl, rfl⟩
  · intro fb e t hend hpit
    have hse : hasStartAndEnd e = false := by
      unfold hasStartAndEnd
      rw [hend, Bool.and_false]
    have hpe : parseEventTime fb e.end_time = none :=
      parseEventTime_none_of_not_truthy fb e.end_time hend
    unfold eventEndDate
    rw [if_neg (by rw [hse]; exact Bool.false_ne_true), hpe, hpit]
    rfl
  · intro fb e opts hs hp he
    have hstart : eventStartDate fb e = none := by
      unfold eventStartDate
      rw [hs, hp, he]
      split <;> rfl
    have hend : eventEndDate fb e = none := by
      unfold eventEndDate
      rw [hs, hp, he]
      split <;> rfl
    refine ⟨hstart, hend, ?_, ?_, ?_⟩
    · unfold timeRangeForEvent
      rw [hstart]
    · intro a b
      unfold eventOverlapsWindow
      rw [hstart]
    · unfold eventToTimelineItem
      rw [hstart]

/-- An event with truthy start and end values. -/
def evSE : EventApi :=
  { id := 7, start_time := some { value := "1939-09-01" },
    end_time := some { value := "1945-09-02" } }

/-- An event with a start and a point-in-time but no end. -/
def evSP : EventApi :=
  { id := 8, start_time := some { value := "1939" },
    point_in_time := some { value := "1943-06-01" } }

/-- Witness for C6: a start-and-end event resolves both directly, and a
start-plus-point-in-time event resolves its end from the point-in-time (not from
the start). -/
theorem c6_extent_fallback_witness :
    (hasStartAndEnd evSE = true ∧
      eventStartDate fbInvalid evSE = parseEventTime fbInvalid evSE.start_time ∧
      eventEndDate fbInvalid evSE = parseEventTime fbInvalid evSE.end_time) ∧
    (hasTruthyValue evSP.end_time = false ∧
      parseEventTime fbInvalid evSP.point_in_time = some (makeUTCDate 1943 5 1) ∧
      eventEndDate fbInvalid evSP = some (makeUTCDate 1943 5 1)) :=
  ⟨⟨by decide, c6_extent_fallback.1 fbInvalid evSE (by decide)⟩,
    ⟨by decide, by decide,
      c6_extent_fallback.2.2.1 fbInvalid evSP (makeUTCDate 1943 5 1) (by decide) (by decide)⟩⟩

/-! ## C7: label suppression -/

lemma computeHideLabel_some (fb : String → Option Instant) (events : List EventApi)
    (w : VisibleWindow) (sef : ℚ) :
    computeHideLabelByEventId fb events (some w) sef =
      if events.length = 0 then []
      else if w.endMs - w.startMs ≤ 0 then []
      else
        events.foldl
          (hideLabelEntry fb (median (events.map importanceOrZero))
            (w.endMs - w.startMs) sef) [] := rfl

lemma mapGet_mapSet_self (m : List (Int × Bool)) (k : Int) (v : Bool) :
    mapGet (mapSet m k v) k = some v := by
  unfold mapSet
  by_cases h : m.any fun p => p.1 == k
  · rw [if_pos h]
    induction m with
    | nil => simp at h
    | cons p ps ih =>
      simp only [List.any_cons, Bool.or_eq_true, beq_iff_eq] at h
      by_cases hp : p.1 = k
      · unfold mapGet
        simp [List.find?_cons, hp]
      · unfold mapGet
        rcases h with h | h
        · exact absurd h hp
        · have := ih (by simpa using h)
          unfold mapGet at this
          simpa [List.find?_cons, hp, if_neg hp] using this
  · rw [if_neg h]
    unfold mapGet
    rw [List.find?_append]
    have hnone : (m.find? fun p => p.1 == k) = none := by
      rw [List.find?_eq_none]
      intro p hp
      simp only [beq_iff_eq]
      intro hpk
      exact h (List.any_eq_true.mpr ⟨p, hp, by simp [hpk]⟩)
    rw [hnone]
    simp [List.find?_cons]

lemma mapGet_mapSet_ne (m : List (Int × Bool)) (k k' : Int) (v : Bool)
    (h : ¬ k = k') : mapGet (mapSet m k' v) k = mapGet m k := by
  unfold mapSet
  by_cases hany : m.any fun p => p.1 == k'
  · rw [if_pos hany]
    unfold mapGet
    clear hany
    induction m with
    | nil => rfl
    | cons p ps ih =>
      by_cases hp : p.1 = k'
      · have hpk : ¬ p.1 = k := by rw [hp]; intro hk; exact h hk.symm
        simp only [List.map_cons, if_pos hp, List.find?_cons]
        have h1 : ((k', v).1 == k) = false := by
          simp only [beq_eq_false_iff_ne, ne_eq]
          intro hk
          exact h hk.symm
        have h2 : (p.1 == k) = false := by
          simp only [beq_eq_false_iff_ne, ne_eq]
          exact hpk
        rw [h1, h2]
        exact ih
      · simp only [List.map_cons, if_neg hp, List.find?_cons]
        cases hpk : (p.1 == k) with
        | true => rfl
        | false => exact ih
  · rw [if_neg hany]
    unfold mapGet
    rw [List.find?_append]
    cases hm : m.find? fun p => p.1 == k with
    | some p => rfl
    | none =>
      simp only [Option.none_or]
      have : (((k', v) : Int × Bool).1 == k) = false := by
        simp only [beq_eq_false_iff_ne, ne_eq]
        intro hk
        exact h hk.symm
      simp [List.find?_cons, this]

lemma hideLabel_foldl_untouched (fb : String → Option Instant) (med : ℚ)
    (span : Int) (sef : ℚ) :
    ∀ (rest : List EventApi) (acc : List (Int × Bool)) (k : Int),
      (∀ e ∈ rest, ¬ e.id = k) →
      mapGet (rest.foldl (hideLabelEntry fb med span sef) acc) k = mapGet acc k := by
  intro rest
  induction rest with
  | nil => intro acc k _; rfl
  | cons x xs ih =>
    intro acc k hk
    simp only [List.foldl_cons]
    rw [ih _ k fun e he => hk e (List.mem_cons_of_mem x he)]
    unfold hideLabelEntry
    cases hx : eventStartDate fb x with
    | none => rfl
    | some s =>
      exact mapGet_mapSet_ne acc k x.id _
        (fun hkx => hk x (List.mem_cons_self x xs) hkx.symm)

lemma hideLabel_foldl_lookup (fb : String → Option Instant) (med : ℚ)
    (span : Int) (sef : ℚ) :
    ∀ (l : List EventApi) (acc : List (Int × Bool)) (e : EventApi) (s : Instant),
      e ∈ l → (l.map EventApi.id).Nodup → eventStartDate fb e = some s →
      mapGet (l.foldl (hideLabelEntry fb med span sef) acc) e.id =
        some (hideLabelDecision fb med span sef e s) := by
  intro l
  induction l with
  | nil => intro acc e s hmem; cases hmem
  | cons x xs ih =>
    intro acc e s hmem hnodup hs
    rw [List.map_cons, List.nodup_cons] at hnodup
    rcases List.mem_cons.mp hmem with he | he
    · subst he
      simp only [List.foldl_cons]
      rw [hideLabel_foldl_untouched fb med span sef xs _ e.id ?hk]
      case hk =>
        intro e' he' hid
        exact hnodup.1 (hid ▸ List.mem_map_of_mem EventApi.id he')
      unfold hideLabelEntry
      rw [hs]
      exact mapGet_mapSet_self acc e.id _
    · simp only [List.foldl_cons]
      exact ih _ e s he hnodup.2 hs

/-- C7: with no visible window the suppression map is empty (so no label is
hidden); with a window of positive span, the decision recorded for every admitted
event with a resolvable start is exactly `hideLabelDecision`, i.e. hidden iff the
display-duration fraction of the span is strictly below `shortEventFraction` AND
the importance score (missing defaults to 0) is strictly below the admitted-set
median; both conditions are required. -/
theorem c7_label_suppression :
    (∀ (fb : String → Option Instant) (events : List EventApi) (sef : ℚ),
      computeHideLabelByEventId fb events none sef = []) ∧
    (∀ (fb : String → Option Instant) (events : List EventApi) (w : VisibleWindow)
      (sef : ℚ) (e : EventApi) (s : Instant),
      0 < w.endMs - w.startMs → (events.map EventApi.id).Nodup → e ∈ events →
      eventStartDate fb e = some s →
      mapGet (computeHideLabelByEventId fb events (some w) sef) e.id =
        some (hideLabelDecision fb (median (events.map importanceOrZero))
          (w.endMs - w.startMs) sef e s)) ∧
    ∀ (fb : String → Option Instant) (med : ℚ) (span : Int) (sef : ℚ)
      (e : EventApi) (s : Instant),
      hideLabelDecision fb med span sef e s = true ↔
        (((max 0 ((if (!hasTruthyValue e.end_time) = true ∧
            (eventEndDate fb e).getD s = s
          then endOfDay s else (eventEndDate fb e).getD s) - s) : Int) : ℚ) /
            ((span : Int) : ℚ) < sef ∧
          importanceOrZero e < med) := by
  refine ⟨fun fb events sef => rfl, ?_, ?_⟩
  · intro fb events w sef e s hspan hnodup hmem hs
    rw [computeHideLabel_some, if_neg ?hlen, if_neg (not_le.mpr hspan)]
    case hlen =>
      intro hlen
      rw [List.length_eq_zero] at hlen
      subst hlen
      cases hmem
    exact hideLabel_foldl_lookup fb _ _ sef events [] e s hmem hnodup hs
  · intro fb med span sef e s
    unfold hideLabelDecision
    simp only [Bool.and_eq_true, decide_eq_true_eq]

/-- Three one-day events with importance 0.9 (not short enough to matter: label
kept), 0.5 (at the median: label kept) and 0.1 (short and below median: label
hidden). -/
def evL1 : EventApi :=
  { id := 1, start_time := some { value := "2000-01-01" },
    end_time := some { value := "2000-01-02" }, importance_score := some (9 / 10) }

/-- Second admitted event of the label-suppression scenario. -/
def evL2 : EventApi :=
  { id := 2, start_time := some { value := "2000-01-01" },
    end_time := some { value := "2000-01-02" }, importance_score := some (1 / 2) }

/-- Third admitted event of the label-suppression scenario. -/
def evL3 : EventApi :=
  { id := 3, start_time := some { value := "2000-01-01" },
    end_time := some { value := "2000-01-02" }, importance_score := some (1 / 10) }

/-- A 1000-day visible window starting 2000-01-01. -/
def winL : VisibleWindow := { startMs := 946684800000, endMs := 1033084800000 }

/-- Witness for C7 on the admitted set with importance scores 0.9, 0.5, 0.1
against a 1000-day window: the score-0.1 event's label is hidden (its duration
fraction 1/1000 is below 0.05 and its score is below the median 0.5), the
score-0.9 event's label is not. -/
theorem c7_label_suppression_witness :
    ((0 : Int) < winL.endMs - winL.startMs ∧
      (([evL1, evL2, evL3].map EventApi.id).Nodup) ∧
      evL3 ∈ [evL1, evL2, evL3] ∧
      eventStartDate fbInvalid evL3 = some 946684800000 ∧
      mapGet (computeHideLabelByEventId fbInvalid [evL1, evL2, evL3] (some winL)
          (1 / 20)) evL3.id =
        some (hideLabelDecision fbInvalid
          (median ([evL1, evL2, evL3].map importanceOrZero))
          (winL.endMs - winL.startMs) (1 / 20) evL3 946684800000)) ∧
    hideLabelDecision fbInvalid (median ([evL1, evL2, evL3].map importanceOrZero))
        (winL.endMs - winL.startMs) (1 / 20) evL3 946684800000 = true ∧
    hideLabelDecision fbInvalid (median ([evL1, evL2, evL3].map importanceOrZero))
        (winL.endMs - winL.startMs) (1 / 20) evL1 946684800000 = false := by
  have hmem : evL3 ∈ [evL1, evL2, evL3] :=
    List.mem_cons_of_mem _ (List.mem_cons_of_mem _ (List.mem_cons_self _ _))
  have hmed : median ([evL1, evL2, evL3].map importanceOrZero) = 1 / 2 := by
    norm_num [median, importanceOrZero, evL1, evL2, evL3, List.insertionSort,
      List.orderedInsert, List.getD_cons_zero, List.getD_cons_succ]
  have hend3 : eventEndDate fbInvalid evL3 = some 946771200000 := by decide
  have hend1 : eventEndDate fbInvalid evL1 = some 946771200000 := by decide
  have hT3 : hasTruthyValue evL3.end_time = true := by decide
  have hT1 : hasTruthyValue evL1.end_time = true := by decide
  have hspan : winL.endMs - winL.startMs = 86400000000 := by decide
  have hd3 : hideLabelDecision fbInvalid
      (median ([evL1, evL2, evL3].map importanceOrZero))
      (winL.endMs - winL.startMs) (1 / 20) evL3 946684800000 = true := by
    rw [hmed, hspan]
    simp only [hideLabelDecision, hend3, Option.getD_some, hT3, Bool.not_true]
    rw [if_neg (by simp)]
    simp only [Bool.and_eq_true, decide_eq_true_eq]
    constructor
    · norm_num
    · norm_num [importanceOrZero, evL3]
  have hd1 : hideLabelDecision fbInvalid
      (median ([evL1, evL2, evL3].map importanceOrZero))
      (winL.endMs - winL.startMs) (1 / 20) evL1 946684800000 = false := by
    rw [hmed, hspan]
    simp only [hideLabelDecision, hend1, Option.getD_some, hT1, Bool.not_true]
    rw [if_neg (by simp)]
    have hlow : decide (importanceOrZero evL1 < 1 / 2) = false := by
      rw [decide_eq_false_iff_not]
      norm_num [importanceOrZero, evL1]
    rw [hlow, Bool.and_false]
  exact ⟨⟨by decide, by decide, hmem, by decide,
    c7_label_suppression.2.1 fbInvalid [evL1, evL2, evL3] winL (1 / 20) evL3
      946684800000 (by decide) (by decide) hmem (by decide)⟩, hd3, hd1⟩

/-! ## C8: resolved extents and their ordering -/

/-- An event whose raw end resolves before its raw start. -/
def evRev : EventApi :=
  { id := 9, start_time := some { value := "2000" }, end_time := some { value := "1990" } }

/-- C8 (counterexample to the claim as stated): for an event with
`start_time = "2000"` and `end_time = "1990"`, `eventEndDate` returns an instant
strictly before `eventStartDate`: the raw resolver functions do not guarantee
`endInstant >= startInstant`. -/
theorem c8_counterexample :
    eventStartDate fbInvalid evRev = some 946684800000 ∧
      eventEndDate fbInvalid evRev = some 631152000000 ∧
      (631152000000 : Int) < 946684800000 := by decide

/-- C8 (amended): the ordering invariant holds for the clamped extent actually
used by all temporal processing — `timeRangeForEvent` clamps the end to
`Math.max(start, rawEnd)`, so every resolved `TimeRange` satisfies
`startMs ≤ endMs`. -/
theorem c8_extent_order_amended (fb : String → Option Instant) (e : EventApi)
    (r : TimeRange) (h : timeRangeForEvent fb e = some r) : r.startMs ≤ r.endMs := by
  unfold timeRangeForEvent at h
  cases hs : eventStartDate fb e with
  | none => rw [hs] at h; cases h
  | some s =>
    rw [hs] at h
    simp only [Option.some.injEq] at h
    rw [← h]
    exact le_max_left s _

/-- Witness for the amended C8 at the reversed event: the clamped range degenerates
to `[start, start]`. -/
theorem c8_extent_order_amended_witness :
    timeRangeForEvent fbInvalid evRev =
        some { startMs := 946684800000, endMs := 946684800000, event := evRev } ∧
      ({ startMs := 946684800000, endMs := 946684800000, event := evRev } :
          TimeRange).startMs ≤
        ({ startMs := 946684800000, endMs := 946684800000, event := evRev} :
          TimeRange).endMs :=
  ⟨by decide, c8_extent_order_amended fbInvalid evRev _ (by decide)⟩

end TimelineAtlas
